import Mathlib

/-!
Shallow embedding of the admin orchestration layer of the repository:
the environment reader, the admin session token codec, the database error
classifier, the Cloudflare purge client, the row-update helpers and the
credential loaders.  JavaScript strings are modelled as lists of
characters.  Platform primitives that live outside the repository
(HMAC-SHA256, base64url, JSON, fetch, Date.now, the database driver) are
modelled as oracle parameters; everything written in the repository
itself is translated directly from the source files.
-/

/-- JavaScript strings are modelled as lists of characters. -/
abbrev Str := List Char

/-- ASCII whitespace recognized by the model of String.prototype.trim. -/
def isWs (c : Char) : Bool :=
  c == ' ' || c == '\t' || c == '\n' || c == '\r'

/-- Model of String.prototype.trim: drop whitespace from both ends. -/
def trimStr (s : Str) : Str :=
  ((s.dropWhile isWs).reverse.dropWhile isWs).reverse

/-- Model of String.prototype.toLowerCase restricted to scalar case mapping. -/
def toLowerStr (s : Str) : Str := s.map Char.toLower

/-- Model of a process environment: variable name to raw value, absent when unset. -/
abbrev Env := Str → Option Str

/-- Environment reader from the env module: trims the raw value and treats an
empty string after trimming as absent. -/
def readEnv (env : Env) (name : Str) : Option Str :=
  match env name with
  | none => none
  | some raw =>
    let value := trimStr raw
    if value = [] then none else some value

/-- Boolean environment reader from the env module: case-insensitive match of
the trimmed value against the true and false word sets, anything else absent. -/
def readBooleanEnv (env : Env) (name : Str) : Option Bool :=
  match readEnv env name with
  | none => none
  | some value =>
    let n := toLowerStr value
    if n = ("1").data ∨ n = ("true").data ∨ n = ("yes").data ∨ n = ("on").data then
      some true
    else if n = ("0").data ∨ n = ("false").data ∨ n = ("no").data ∨ n = ("off").data then
      some false
    else
      none

/-- Decimal digit character for a digit value below ten. -/
def digitChar : Nat → Char
  | 0 => '0' | 1 => '1' | 2 => '2' | 3 => '3' | 4 => '4'
  | 5 => '5' | 6 => '6' | 7 => '7' | 8 => '8' | _ => '9'

/-- Fuelled decimal rendering of a natural number, as JavaScript template
interpolation renders a non-negative integer timestamp. -/
def natToStrGo (fuel : Nat) (n : Nat) : Str :=
  match fuel with
  | 0 => []
  | f + 1 =>
    if n < 10 then [digitChar n]
    else natToStrGo f (n / 10) ++ [digitChar (n % 10)]

/-- Decimal rendering of a natural number. -/
def natToStr (n : Nat) : Str := natToStrGo (n + 1) n

/-- Numeric value of a decimal digit character, absent for non-digits. -/
def digitVal (c : Char) : Option Nat :=
  if 48 ≤ c.toNat ∧ c.toNat ≤ 57 then some (c.toNat - 48) else none

/-- Numeric value of a digit character, with junk for non-digits. -/
def charDigit (c : Char) : Nat := c.toNat - 48

/-- Split a string into its maximal leading run of decimal digits and the rest. -/
def takeDigits : Str → (List Nat × Str)
  | [] => ([], [])
  | c :: rest =>
    match digitVal c with
    | some d =>
      let p := takeDigits rest
      (d :: p.1, p.2)
    | none => ([], c :: rest)

/-- Value of a list of decimal digit values, most significant first. -/
def digitsVal (ds : List Nat) : Nat := ds.foldl (fun a d => a * 10 + d) 0

/-- Value of the maximal leading digit run of a string, absent when empty. -/
def parseDigitsJs (s : Str) : Option Nat :=
  let p := takeDigits s
  if p.1 = [] then none else some (digitsVal p.1)

/-- Model of Number.parseInt with radix 10: trim, optional sign, then the
value of the maximal leading digit run; absent (NaN) when there is none. -/
def parseIntJs (s : Str) : Option Int :=
  let t := trimStr s
  if t.head? = some '-' then (parseDigitsJs t.tail).map (fun v => -(v : Int))
  else if t.head? = some '+' then (parseDigitsJs t.tail).map (fun v => (v : Int))
  else (parseDigitsJs t).map (fun v => (v : Int))

/-- Constant-time comparison from the admin auth module: length mismatch is
false, otherwise the bitwise OR of the XOR of every character pair must be
zero (src/unnamed/part_004, timingSafeEqual). -/
def timingSafeEqual (expected provided : Str) : Bool :=
  if expected.length ≠ provided.length then false
  else
    ((expected.zip provided).foldl
      (fun r p => r ||| (p.1.toNat ^^^ p.2.toNat)) 0) == 0

/-- External cryptographic and encoding primitives used by the admin session
codec.  sign models HMAC-SHA256 rendered as lowercase hex; enc and dec model
toBase64Url and fromBase64Url, with dec returning none when decoding throws. -/
structure TokenCrypto where
  sign : Str → Str → Str
  enc : Str → Str
  dec : Str → Option Str

/-- Session TTL from the admin auth module: 12 hours in seconds. -/
def ADMIN_SESSION_TTL_SECONDS : Nat := 60 * 60 * 12

/-- issueAdminSessionToken: sign the payload "issuedAt:nonce" and base64url
encode "issuedAt:nonce:signature".  The random nonce and the issue time are
oracle inputs. -/
def issueAdminSessionToken (k : TokenCrypto) (password : Str) (issuedAt : Nat)
    (nonce : Str) : Str :=
  let payload := natToStr issuedAt ++ ':' :: nonce
  let signature := k.sign payload password
  k.enc (payload ++ ':' :: signature)

/-- Destructuring lookup of a split-part list: JavaScript array destructuring
gives undefined past the end; undefined and the empty string are both falsy,
so both are modelled as the empty string. -/
def partAt (l : List Str) (i : Nat) : Str := (l.get? i).getD []

/-- verifyAdminSessionToken: decode, split on colon, take the first three
parts, recompute the signature, compare in constant time, then check the age
against the TTL.  Any decode failure is verification failure. -/
def verifyAdminSessionToken (k : TokenCrypto) (token : Str) (password : Str)
    (now : Int) : Bool :=
  match k.dec token with
  | none => false
  | some decoded =>
    let parts := decoded.splitOn ':'
    let issuedAtRaw := partAt parts 0
    let nonce := partAt parts 1
    let signature := partAt parts 2
    if issuedAtRaw = [] ∨ nonce = [] ∨ signature = [] then false
    else
      let payload := issuedAtRaw ++ ':' :: nonce
      let expected := k.sign payload password
      if !timingSafeEqual expected signature then false
      else
        match parseIntJs issuedAtRaw with
        | none => false
        | some issuedAt =>
          let age := now - issuedAt
          if age < 0 ∨ age > (ADMIN_SESSION_TTL_SECONDS : Int) * 1000 then false
          else true

/-! ### Arithmetic and string lemmas for the session codec -/

theorem digitChar_code (d : Nat) :
    48 ≤ (digitChar d).toNat ∧ (digitChar d).toNat ≤ 57 := by
  match d with
  | 0 | 1 | 2 | 3 | 4 | 5 | 6 | 7 | 8 => decide
  | n + 9 => exact (by decide : 48 ≤ ('9').toNat ∧ ('9').toNat ≤ 57)

theorem charDigit_digitChar (d : Nat) (h : d < 10) :
    charDigit (digitChar d) = d := by
  interval_cases d <;> decide

theorem digit_facts (c : Char) (h48 : 48 ≤ c.toNat) (h57 : c.toNat ≤ 57) :
    c ≠ ':' ∧ isWs c = false ∧ c ≠ '-' ∧ c ≠ '+' := by
  have hsp : c ≠ ' ' := by intro h; subst h; revert h48; decide
  have htab : c ≠ '\t' := by intro h; subst h; revert h48; decide
  have hnl : c ≠ '\n' := by intro h; subst h; revert h48; decide
  have hcr : c ≠ '\r' := by intro h; subst h; revert h48; decide
  refine ⟨?_, ?_, ?_, ?_⟩
  · intro h; subst h; revert h57; decide
  · simp [isWs, hsp, htab, hnl, hcr]
  · intro h; subst h; revert h48; decide
  · intro h; subst h; revert h48; decide

theorem natToStrGo_irrel :
    ∀ n f1 f2, n < f1 → n < f2 → natToStrGo f1 n = natToStrGo f2 n := by
  intro n
  induction n using Nat.strong_induction_on with
  | _ n ih =>
    intro f1 f2 h1 h2
    obtain ⟨g1, rfl⟩ : ∃ g, f1 = g + 1 := ⟨f1 - 1, by omega⟩
    obtain ⟨g2, rfl⟩ : ∃ g, f2 = g + 1 := ⟨f2 - 1, by omega⟩
    simp only [natToStrGo]
    by_cases hn : n < 10
    · simp [hn]
    · have hdiv : n / 10 < n := Nat.div_lt_self (by omega) (by omega)
      simp only [hn, if_false]
      rw [ih (n / 10) hdiv g1 g2 (by omega) (by omega)]

theorem natToStr_eq (n : Nat) :
    natToStr n =
      if n < 10 then [digitChar n] else natToStr (n / 10) ++ [digitChar (n % 10)] := by
  have step : natToStrGo (n + 1) n =
      if n < 10 then [digitChar n] else natToStrGo n (n / 10) ++ [digitChar (n % 10)] := rfl
  by_cases h : n < 10
  · rw [if_pos h]
    unfold natToStr
    rw [step, if_pos h]
  · have hdiv : n / 10 < n := Nat.div_lt_self (by omega) (by omega)
    rw [if_neg h]
    unfold natToStr
    rw [step, if_neg h, natToStrGo_irrel (n / 10) n (n / 10 + 1) hdiv (by omega)]

theorem natToStr_mem (n : Nat) :
    ∀ c ∈ natToStr n, 48 ≤ c.toNat ∧ c.toNat ≤ 57 := by
  induction n using Nat.strong_induction_on with
  | _ n ih =>
    intro c hc
    rw [natToStr_eq] at hc
    by_cases h : n < 10
    · simp [h] at hc
      subst hc
      exact digitChar_code n
    · have hdiv : n / 10 < n := Nat.div_lt_self (by omega) (by omega)
      simp [h] at hc
      rcases hc with hc | hc
      · exact ih (n / 10) hdiv c hc
      · subst hc
        exact digitChar_code (n % 10)

theorem natToStr_ne_nil (n : Nat) : natToStr n ≠ [] := by
  rw [natToStr_eq]
  by_cases h : n < 10 <;> simp [h]

theorem takeDigits_all (s : Str) (h : ∀ c ∈ s, 48 ≤ c.toNat ∧ c.toNat ≤ 57) :
    takeDigits s = (s.map charDigit, []) := by
  induction s with
  | nil => rfl
  | cons c rest ih =>
    have hc := h c (by simp)
    have hd : digitVal c = some (charDigit c) := by
      unfold digitVal
      rw [if_pos ⟨hc.1, hc.2⟩]
      rfl
    simp [takeDigits, hd, ih (fun x hx => h x (by simp [hx]))]

theorem digitsVal_append (l : List Nat) (d : Nat) :
    digitsVal (l ++ [d]) = 10 * digitsVal l + d := by
  unfold digitsVal
  rw [List.foldl_append]
  simp [List.foldl]
  omega

theorem digitsVal_natToStr (n : Nat) :
    digitsVal ((natToStr n).map charDigit) = n := by
  induction n using Nat.strong_induction_on with
  | _ n ih =>
    rw [natToStr_eq]
    by_cases h : n < 10
    · simp [h, digitsVal, List.foldl, charDigit_digitChar n h]
    · have hdiv : n / 10 < n := Nat.div_lt_self (by omega) (by omega)
      simp only [h, if_false, List.map_append, List.map]
      rw [digitsVal_append, ih (n / 10) hdiv,
        charDigit_digitChar (n % 10) (Nat.mod_lt n (by omega))]
      omega

theorem dropWhile_of_all_false (p : Char → Bool) (s : Str)
    (h : ∀ c ∈ s, p c = false) : s.dropWhile p = s := by
  cases s with
  | nil => rfl
  | cons c rest => simp [List.dropWhile, h c (by simp)]

theorem trimStr_of_no_ws (s : Str) (h : ∀ c ∈ s, isWs c = false) :
    trimStr s = s := by
  unfold trimStr
  rw [dropWhile_of_all_false _ _ h,
    dropWhile_of_all_false _ _ (fun c hc => h c (List.mem_reverse.mp hc)),
    List.reverse_reverse]

theorem parseIntJs_natToStr (n : Nat) : parseIntJs (natToStr n) = some (n : Int) := by
  have hmem := natToStr_mem n
  have htrim : trimStr (natToStr n) = natToStr n :=
    trimStr_of_no_ws _ (fun c hc => (digit_facts c (hmem c hc).1 (hmem c hc).2).2.1)
  have hhead : ∀ x, (natToStr n).head? = some x → 48 ≤ x.toNat ∧ x.toNat ≤ 57 := by
    intro x hx
    exact hmem x (List.mem_of_mem_head? hx)
  simp only [parseIntJs, htrim]
  rw [if_neg, if_neg]
  · have hall : takeDigits (natToStr n) = ((natToStr n).map charDigit, []) :=
      takeDigits_all _ hmem
    simp only [parseDigitsJs, hall]
    rw [if_neg]
    · rw [digitsVal_natToStr n]
      rfl
    · rcases hs : natToStr n with _ | ⟨c, rest⟩
      · exact absurd hs (natToStr_ne_nil n)
      · simp
  · intro hx
    have := hhead '+' hx
    revert this
    decide
  · intro hx
    have := hhead '-' hx
    revert this
    decide

theorem splitOn_append_sep (xs as : Str) (h : ∀ y ∈ xs, y ≠ ':') :
    (xs ++ ':' :: as).splitOn ':' = xs :: as.splitOn ':' := by
  apply List.splitOnP_first
  · intro y hy
    simp [h y hy]
  · simp

theorem splitOn_no_sep (xs : Str) (h : ∀ y ∈ xs, y ≠ ':') :
    xs.splitOn ':' = [xs] := by
  apply List.splitOnP_eq_single
  intro y hy
  simp [h y hy]

theorem splitOn_three (a b c : Str) (ha : ∀ x ∈ a, x ≠ ':')
    (hb : ∀ x ∈ b, x ≠ ':') (hc : ∀ x ∈ c, x ≠ ':') :
    ((a ++ ':' :: b) ++ ':' :: c).splitOn ':' = [a, b, c] := by
  have hra : (a ++ ':' :: b) ++ ':' :: c = a ++ ':' :: (b ++ ':' :: c) := by simp
  rw [hra, splitOn_append_sep a _ ha, splitOn_append_sep b _ hb, splitOn_no_sep c hc]

theorem or_eq_zero_iff' (a b : Nat) : a ||| b = 0 ↔ a = 0 ∧ b = 0 := by
  constructor
  · intro h
    constructor
    · apply Nat.eq_of_testBit_eq
      intro i
      have := congrArg (fun m => Nat.testBit m i) h
      simp [Nat.testBit_or] at this
      simp [this.1]
    · apply Nat.eq_of_testBit_eq
      intro i
      have := congrArg (fun m => Nat.testBit m i) h
      simp [Nat.testBit_or] at this
      simp [this.2]
  · rintro ⟨rfl, rfl⟩
    rfl

theorem foldl_or_eq_zero (l : List Nat) (r : Nat) :
    l.foldl (fun a x => a ||| x) r = 0 ↔ r = 0 ∧ ∀ x ∈ l, x = 0 := by
  induction l generalizing r with
  | nil => simp [List.foldl]
  | cons x t ih =>
    simp only [List.foldl]
    rw [ih (r ||| x), or_eq_zero_iff']
    constructor
    · rintro ⟨⟨hr, hx⟩, hall⟩
      refine ⟨hr, ?_⟩
      intro y hy
      rcases List.mem_cons.mp hy with rfl | hy
      · exact hx
      · exact hall y hy
    · rintro ⟨hr, hall⟩
      exact ⟨⟨hr, hall x (by simp)⟩, fun y hy => hall y (by simp [hy])⟩

theorem char_toNat_inj (c d : Char) (h : c.toNat = d.toNat) : c = d := by
  apply Char.eq_of_val_eq
  apply UInt32.eq_of_val_eq
  apply Fin.eq_of_val_eq
  exact h

theorem zip_self_fst_eq_snd (a : Str) : ∀ p ∈ a.zip a, p.1 = p.2 := by
  induction a with
  | nil => simp
  | cons x t ih =>
    intro p hp
    rcases List.mem_cons.mp hp with rfl | hp
    · rfl
    · exact ih p hp

theorem zip_pointwise_eq (a : Str) :
    ∀ b : Str, a.length = b.length → (∀ p ∈ a.zip b, p.1 = p.2) → a = b := by
  induction a with
  | nil =>
    intro b hlen _
    cases b with
    | nil => rfl
    | cons y u => simp at hlen
  | cons x t ih =>
    intro b hlen hall
    cases b with
    | nil => simp at hlen
    | cons y u =>
      have hx : x = y := hall (x, y) (by simp)
      have ht : t = u := ih u (by simpa using hlen) (fun p hp => hall p (by simp [hp]))
      rw [hx, ht]

theorem timingSafeEqual_iff (a b : Str) : timingSafeEqual a b = true ↔ a = b := by
  unfold timingSafeEqual
  by_cases hlen : a.length = b.length
  · rw [if_neg (by omega)]
    rw [beq_iff_eq, ← List.foldl_map (fun p : Char × Char => p.1.toNat ^^^ p.2.toNat)
      (fun a x => a ||| x), foldl_or_eq_zero]
    constructor
    · rintro ⟨-, hall⟩
      apply zip_pointwise_eq a b hlen
      intro p hp
      have := hall (p.1.toNat ^^^ p.2.toNat) (List.mem_map_of_mem _ hp)
      exact char_toNat_inj _ _ (Nat.xor_eq_zero.mp this)
    · rintro rfl
      refine ⟨rfl, ?_⟩
      intro x hx
      rcases List.mem_map.mp hx with ⟨p, hp, rfl⟩
      rw [zip_self_fst_eq_snd a p hp]
      simp
  · rw [if_pos hlen]
    constructor
    · intro h
      exact absurd h (by simp)
    · rintro rfl
      exact absurd rfl hlen

theorem timingSafeEqual_eq_beq (a b : Str) : timingSafeEqual a b = (a == b) := by
  by_cases h : a = b
  · subst h
    rw [(timingSafeEqual_iff a a).mpr rfl, beq_self_eq_true]
  · have h1 : timingSafeEqual a b = false := by
      rcases Bool.eq_false_or_eq_true (timingSafeEqual a b) with ht | hf
      · exact absurd ((timingSafeEqual_iff a b).mp ht) h
      · exact hf
    rw [h1, beq_eq_false_iff_ne.mpr h]

theorem natToStr_no_colon (n : Nat) : ∀ x ∈ natToStr n, x ≠ ':' := by
  intro x hx
  exact (digit_facts x (natToStr_mem n x hx).1 (natToStr_mem n x hx).2).1

theorem verify_issue_eq (k : TokenCrypto) (password pw : Str) (issuedAt : Nat)
    (nonce : Str) (now : Int)
    (hdec : ∀ s, k.dec (k.enc s) = some s)
    (hnonce1 : nonce ≠ []) (hnonce2 : ∀ x ∈ nonce, x ≠ ':')
    (hsig : ∀ p q, k.sign p q ≠ [] ∧ ∀ x ∈ k.sign p q, x ≠ ':') :
    verifyAdminSessionToken k (issueAdminSessionToken k password issuedAt nonce) pw now =
      ((k.sign (natToStr issuedAt ++ ':' :: nonce) pw ==
          k.sign (natToStr issuedAt ++ ':' :: nonce) password) &&
        !(decide (now - (issuedAt : Int) < 0) ||
          decide (now - (issuedAt : Int) > (ADMIN_SESSION_TTL_SECONDS : Int) * 1000))) := by
  have hsplit := splitOn_three (natToStr issuedAt) nonce
    (k.sign (natToStr issuedAt ++ ':' :: nonce) password)
    (natToStr_no_colon issuedAt) hnonce2
    (hsig (natToStr issuedAt ++ ':' :: nonce) password).2
  simp only [verifyAdminSessionToken, issueAdminSessionToken, hdec, hsplit]
  simp only [partAt, List.get?, Option.getD]
  rw [if_neg]
  · rw [timingSafeEqual_eq_beq]
    rcases hbeq : (k.sign (natToStr issuedAt ++ ':' :: nonce) pw ==
        k.sign (natToStr issuedAt ++ ':' :: nonce) password) with _ | _
    · simp
    · simp only [Bool.not_true, if_false, Bool.true_and]
      rw [parseIntJs_natToStr]
      by_cases h1 : now - (issuedAt : Int) < 0
      · simp [h1]
      · by_cases h2 : now - (issuedAt : Int) > (ADMIN_SESSION_TTL_SECONDS : Int) * 1000
        · simp [h1, h2]
        · simp [h1, h2]
  · push_neg
    exact ⟨natToStr_ne_nil issuedAt, hnonce1,
      (hsig (natToStr issuedAt ++ ':' :: nonce) password).1⟩

/-- C1: a token issued at time t verifies with the issuing secret exactly
while the age now - t is between zero and the 12 hour TTL, and fails against
a secret whose recomputed signature differs from the embedded one.  The
base64url pair, the hex form of the nonce and of the HMAC output are
hypotheses on the platform oracles. -/
theorem admin_session_token_roundtrip (k : TokenCrypto)
    (password otherPassword : Str) (issuedAt : Nat) (nonce : Str) (now : Int)
    (hdec : ∀ s, k.dec (k.enc s) = some s)
    (hnonce1 : nonce ≠ []) (hnonce2 : ∀ x ∈ nonce, x ≠ ':')
    (hsig : ∀ p q, k.sign p q ≠ [] ∧ ∀ x ∈ k.sign p q, x ≠ ':') :
    (0 ≤ now - (issuedAt : Int) ∧
        now - (issuedAt : Int) ≤ (ADMIN_SESSION_TTL_SECONDS : Int) * 1000 →
      verifyAdminSessionToken k (issueAdminSessionToken k password issuedAt nonce)
        password now = true)
    ∧ (now - (issuedAt : Int) > (ADMIN_SESSION_TTL_SECONDS : Int) * 1000 →
      verifyAdminSessionToken k (issueAdminSessionToken k password issuedAt nonce)
        password now = false)
    ∧ (k.sign (natToStr issuedAt ++ ':' :: nonce) otherPassword ≠
        k.sign (natToStr issuedAt ++ ':' :: nonce) password →
      verifyAdminSessionToken k (issueAdminSessionToken k password issuedAt nonce)
        otherPassword now = false) := by
  refine ⟨?_, ?_, ?_⟩
  · intro h
    rw [verify_issue_eq k password password issuedAt nonce now hdec hnonce1 hnonce2 hsig]
    simp only [beq_self_eq_true, Bool.true_and]
    have h1 : ¬(now - (issuedAt : Int) < 0) := by omega
    have h2 : ¬(now - (issuedAt : Int) > (ADMIN_SESSION_TTL_SECONDS : Int) * 1000) := h.2.not_lt
    simp [h1, h2]
  · intro h
    rw [verify_issue_eq k password password issuedAt nonce now hdec hnonce1 hnonce2 hsig]
    simp [h]
  · intro h
    rw [verify_issue_eq k password otherPassword issuedAt nonce now hdec hnonce1 hnonce2 hsig]
    simp [h]

/-- Concrete oracle instance used by witnesses: a toy colon-free signer and
the identity base64url pair. -/
def demoCrypto : TokenCrypto where
  sign := fun p pw => 'h' :: (p ++ pw).map (fun c => if c = ':' then '.' else c)
  enc := fun s => s
  dec := fun s => some s

theorem demoCrypto_sign_ok (p q : Str) :
    demoCrypto.sign p q ≠ [] ∧ ∀ x ∈ demoCrypto.sign p q, x ≠ ':' := by
  constructor
  · simp [demoCrypto]
  · intro x hx
    simp only [demoCrypto, List.mem_cons, List.mem_map] at hx
    rcases hx with rfl | ⟨a, _, rfl⟩
    · decide
    · by_cases ha : a = ':'
      · simp [ha]
      · simp [ha]

theorem admin_session_token_roundtrip_witness :
    verifyAdminSessionToken demoCrypto
      (issueAdminSessionToken demoCrypto (("s").data) 5 (("n").data))
      (("s").data) 100 = true ∧
    verifyAdminSessionToken demoCrypto
      (issueAdminSessionToken demoCrypto (("s").data) 5 (("n").data))
      (("t").data) 100 = false := by
  have h := admin_session_token_roundtrip demoCrypto (("s").data) (("t").data)
    5 (("n").data) 100 (fun _ => rfl) (by decide) (by decide) demoCrypto_sign_ok
  exact ⟨h.1 (by constructor <;> decide), h.2.2 (by decide)⟩

/-- C2 counterexample: a token whose decoded form splits into FOUR parts is
accepted, because the destructuring takes the first three parts and ignores
the rest.  The first three parts form a valid issued token, the fourth is
junk. -/
theorem verify_extra_parts_accepted :
    (List.splitOn ':' (("0:n:h0.ns:x").data)).length = 4 ∧
    verifyAdminSessionToken demoCrypto (("0:n:h0.ns:x").data) (("s").data) 0 = true := by
  constructor
  · decide
  · decide

theorem partAt_of_short (l : List Str) (h : l.length < 3) : partAt l 2 = [] := by
  unfold partAt
  rw [List.get?_eq_none.mpr (by omega)]
  rfl

/-- C2 amended: verification fails closed whenever any of the first three
colon-separated parts of the decoded token is missing or empty; in
particular when the decoded form has fewer than three parts.  Parts beyond
the third are ignored, so four or more parts can still be accepted. -/
theorem verify_fails_closed_on_missing_parts (k : TokenCrypto)
    (token password : Str) (now : Int) (decoded : Str)
    (hdec : k.dec token = some decoded)
    (h : partAt (decoded.splitOn ':') 0 = [] ∨ partAt (decoded.splitOn ':') 1 = [] ∨
      partAt (decoded.splitOn ':') 2 = []) :
    verifyAdminSessionToken k token password now = false := by
  simp only [verifyAdminSessionToken, hdec]
  rw [if_pos h]

theorem verify_fails_closed_on_missing_parts_witness :
    verifyAdminSessionToken demoCrypto (("a:b").data) (("s").data) 0 = false :=
  verify_fails_closed_on_missing_parts demoCrypto (("a:b").data) (("s").data) 0
    (("a:b").data) rfl (Or.inr (Or.inr (by decide)))

/-! ### Cloudflare purge client (src/lib/server/cloudflare/purge.ts) -/

/-- Per-request URL cap of the upstream purge API. -/
def MAX_URLS_PER_REQUEST : Nat := 2000

/-- Outcome of one fetch attempt, as seen by purgeChunk: a response with a
status and an optional cf-ray header, an AbortError thrown by the timeout
signal, or any other thrown error.  Latency is carried by the oracle. -/
inductive AttemptOutcome where
  | response (status : Nat) (rayId : Option Str) (latencyMs : Nat)
  | abort (latencyMs : Nat)
  | failure (latencyMs : Nat)
deriving DecidableEq, Repr

/-- Purge mode field of a PurgeResult. -/
inductive PurgeMode where
  | files
  | purge_everything
deriving DecidableEq, Repr

/-- Result shape returned by purgeChunk.  errored models whether the error
field of the source record is populated. -/
structure PurgeResult where
  ok : Bool
  status : Nat
  rayIds : List Str
  latencyMs : Nat
  attempts : Nat
  mode : PurgeMode
  errored : Bool
deriving DecidableEq, Repr

/-- Push an optional ray id, as the source does when the header is present. -/
def pushRay (rayIds : List Str) : Option Str → List Str
  | none => rayIds
  | some r => rayIds ++ [r]

/-- Loop body of purgeChunk.  The while loop runs while attempts < 2; fuel
bounds the number of loop entries and the pair carries the number of fetch
calls actually made.  oracle i is the outcome of attempt number i (0-based). -/
def purgeChunkGo (oracle : Nat → AttemptOutcome) (retryOnTimeout : Bool) :
    Nat → Nat → List Str → PurgeResult × Nat
  | 0, attempts, rayIds =>
    ({ ok := false, status := 0, rayIds, latencyMs := 0, attempts := 2,
       mode := .files, errored := true }, attempts)
  | fuel + 1, attempts0, rayIds =>
    if attempts0 < 2 then
      let attempts := attempts0 + 1
      match oracle (attempts - 1) with
      | .response status rayId latencyMs =>
        let rayIds := pushRay rayIds rayId
        if (500 ≤ status ∨ status = 524) ∧ attempts < 2 then
          purgeChunkGo oracle retryOnTimeout fuel attempts rayIds
        else
          ({ ok := decide (200 ≤ status ∧ status < 300), status, rayIds, latencyMs,
             attempts, mode := .files,
             errored := !decide (200 ≤ status ∧ status < 300) }, attempts)
      | .abort latencyMs =>
        if attempts < 2 ∧ retryOnTimeout then
          purgeChunkGo oracle retryOnTimeout fuel attempts rayIds
        else
          ({ ok := false, status := 0, rayIds, latencyMs, attempts,
             mode := .files, errored := true }, attempts)
      | .failure latencyMs =>
        ({ ok := false, status := 0, rayIds, latencyMs, attempts,
           mode := .files, errored := true }, attempts)
    else
      ({ ok := false, status := 0, rayIds, latencyMs := 0, attempts := 2,
         mode := .files, errored := true }, attempts0)

/-- purgeChunk: at most two attempts against the oracle, starting with no
attempts made and no collected ray ids. -/
def purgeChunk (oracle : Nat → AttemptOutcome) (retryOnTimeout : Bool) :
    PurgeResult × Nat :=
  purgeChunkGo oracle retryOnTimeout 2 0 []

/-- Retry condition of the first attempt, read off the source: a 5xx or 524
response always retries, an abort retries only when retry-on-timeout was
requested, any other thrown error never retries. -/
def firstAttemptRetries (o : AttemptOutcome) (retryOnTimeout : Bool) : Bool :=
  match o with
  | .response status _ _ => decide (500 ≤ status) || decide (status = 524)
  | .abort _ => retryOnTimeout
  | .failure _ => false

/-- C3: purgeChunk makes at most two fetch attempts; a second attempt happens
exactly when the first outcome satisfies the retry condition, and the
attempts field of the returned result equals the number of attempts made. -/
theorem purgeChunk_retry_policy (oracle : Nat → AttemptOutcome) (rt : Bool) :
    (purgeChunk oracle rt).2 ≤ 2 ∧
    (purgeChunk oracle rt).1.attempts = (purgeChunk oracle rt).2 ∧
    (purgeChunk oracle rt).2 = (if firstAttemptRetries (oracle 0) rt then 2 else 1) := by
  unfold purgeChunk
  rcases h0 : oracle 0 with ⟨s0, r0, l0⟩ | l0 | l0
  · by_cases hs0 : 500 ≤ s0 ∨ s0 = 524
    · rcases h1 : oracle 1 with ⟨s1, r1, l1⟩ | l1 | l1 <;>
        simp [purgeChunkGo, h0, h1, hs0, firstAttemptRetries,
          Bool.or_eq_true, decide_eq_true_eq]
    · simp [purgeChunkGo, h0, hs0, firstAttemptRetries,
        Bool.or_eq_true, decide_eq_true_eq]
  · rcases rt with _ | _ <;>
      rcases h1 : oracle 1 with ⟨s1, r1, l1⟩ | l1 | l1 <;>
        simp [purgeChunkGo, h0, h1, firstAttemptRetries]
  · simp [purgeChunkGo, h0, firstAttemptRetries]

/-- Cloudflare purge configuration bundle (purge.ts). -/
structure CloudflarePurgeConfig where
  zoneId : Str
  apiToken : Str
  enablePurgeOnPublish : Bool
  includeProductUrls : Bool
deriving DecidableEq, Repr

/-- getCloudflarePurgeConfig: zone id and API token are required, the two
feature toggles default to false. -/
def getCloudflarePurgeConfig (env : Env) : Option CloudflarePurgeConfig :=
  match readEnv env (("CLOUDFLARE_ZONE_ID").data),
      readEnv env (("CLOUDFLARE_API_TOKEN").data) with
  | some zoneId, some apiToken =>
    some { zoneId, apiToken,
           enablePurgeOnPublish :=
             (readBooleanEnv env (("CLOUDFLARE_ENABLE_PURGE_ON_PUBLISH").data)).getD false,
           includeProductUrls :=
             (readBooleanEnv env (("CLOUDFLARE_INCLUDE_PRODUCT_URLS").data)).getD false }
  | _, _ => none

/-- Loop body of chunkUrls: slices of MAX_URLS_PER_REQUEST urls, with fuel
bounding the number of iterations (the source loop strides by 2000 over the
index range, so the list length is always enough fuel). -/
def chunkUrlsGo (fuel : Nat) (urls : List Str) : List (List Str) :=
  match fuel, urls with
  | _, [] => []
  | 0, _ :: _ => []
  | f + 1, u :: rest =>
    (u :: rest).take MAX_URLS_PER_REQUEST ::
      chunkUrlsGo f ((u :: rest).drop MAX_URLS_PER_REQUEST)

/-- chunkUrls: partition the url list into slices of at most 2000 in order. -/
def chunkUrls (urls : List Str) : List (List Str) :=
  chunkUrlsGo urls.length urls

/-- purgeCloudflareUrls: throws MissingCloudflarePurgeEnvError without a
configuration, otherwise purges every chunk in order, with retry-on-timeout
requested, and returns one PurgeResult per chunk.  The oracle gives the
fetch outcomes of each chunk index. -/
def purgeCloudflareUrls (oracle : Nat → Nat → AttemptOutcome) (urls : List Str)
    (config : Option CloudflarePurgeConfig) : Except Unit (List PurgeResult) :=
  match config with
  | none => .error ()
  | some _ =>
    .ok ((chunkUrls urls).enum.map (fun p => (purgeChunk (oracle p.1) true).1))

theorem chunkUrlsGo_step (fuel : Nat) (urls : List Str) (h : urls ≠ []) :
    chunkUrlsGo (fuel + 1) urls =
      urls.take MAX_URLS_PER_REQUEST ::
        chunkUrlsGo fuel (urls.drop MAX_URLS_PER_REQUEST) := by
  cases urls with
  | nil => exact absurd rfl h
  | cons u rest => rfl

theorem chunkUrlsGo_nil (fuel : Nat) : chunkUrlsGo fuel [] = [] := by
  cases fuel <;> rfl

theorem chunkUrlsGo_join (fuel : Nat) :
    ∀ urls : List Str, urls.length ≤ fuel → (chunkUrlsGo fuel urls).flatten = urls := by
  induction fuel with
  | zero =>
    intro urls h
    have : urls = [] := List.eq_nil_of_length_eq_zero (by omega)
    subst this
    rfl
  | succ f ih =>
    intro urls h
    cases hu : urls with
    | nil => simp [chunkUrlsGo_nil]
    | cons u rest =>
      subst hu
      rw [chunkUrlsGo_step f _ (by simp)]
      simp only [List.flatten_cons]
      rw [ih _ (by simp [List.length_drop, MAX_URLS_PER_REQUEST] at h ⊢; omega)]
      exact List.take_append_drop _ _

theorem chunkUrlsGo_sizes (fuel : Nat) :
    ∀ urls : List Str, ∀ c ∈ chunkUrlsGo fuel urls,
      c.length ≤ MAX_URLS_PER_REQUEST ∧ c ≠ [] := by
  induction fuel with
  | zero =>
    intro urls c hc
    cases urls <;> simp [chunkUrlsGo] at hc
  | succ f ih =>
    intro urls c hc
    cases hu : urls with
    | nil =>
      subst hu
      simp [chunkUrlsGo_nil] at hc
    | cons u rest =>
      subst hu
      rw [chunkUrlsGo_step f _ (by simp)] at hc
      rcases List.mem_cons.mp hc with rfl | hc
      · constructor
        · simp [List.length_take]
        · simp [List.take, MAX_URLS_PER_REQUEST]
      · exact ih _ c hc

theorem chunkUrls_map_length_5000 (urls : List Str) (h : urls.length = 5000) :
    (chunkUrls urls).map List.length = [2000, 2000, 1000] := by
  have h1 : urls ≠ [] := by
    intro hn
    rw [hn] at h
    simp at h
  have hd1 : (urls.drop MAX_URLS_PER_REQUEST).length = 3000 := by
    simp [List.length_drop, h, MAX_URLS_PER_REQUEST]
  have hd1n : urls.drop MAX_URLS_PER_REQUEST ≠ [] := by
    intro hn
    rw [hn] at hd1
    simp at hd1
  have hd2 : ((urls.drop MAX_URLS_PER_REQUEST).drop MAX_URLS_PER_REQUEST).length = 1000 := by
    simp [List.length_drop, h, MAX_URLS_PER_REQUEST]
  have hd2n : (urls.drop MAX_URLS_PER_REQUEST).drop MAX_URLS_PER_REQUEST ≠ [] := by
    intro hn
    rw [hn] at hd2
    simp at hd2
  have hnil :
      ((urls.drop MAX_URLS_PER_REQUEST).drop MAX_URLS_PER_REQUEST).drop
        MAX_URLS_PER_REQUEST = [] := by
    apply List.eq_nil_of_length_eq_zero
    simp [List.length_drop, h, MAX_URLS_PER_REQUEST]
  unfold chunkUrls
  rw [h]
  rw [show (5000 : Nat) = 4999 + 1 from rfl, chunkUrlsGo_step _ _ h1]
  rw [show (4999 : Nat) = 4998 + 1 from rfl, chunkUrlsGo_step _ _ hd1n]
  rw [show (4998 : Nat) = 4997 + 1 from rfl, chunkUrlsGo_step _ _ hd2n]
  rw [hnil, chunkUrlsGo_nil]
  simp [List.length_take, h, hd1, hd2, MAX_URLS_PER_REQUEST]

/-- C4: chunkUrls partitions the input in order into slices of at most 2000
urls, purgeCloudflareUrls returns exactly one PurgeResult per chunk, and an
input of 5000 urls produces exactly the chunk sizes 2000, 2000, 1000. -/
theorem purgeCloudflareUrls_chunking (oracle : Nat → Nat → AttemptOutcome)
    (urls : List Str) (cfg : CloudflarePurgeConfig) :
    (chunkUrls urls).flatten = urls ∧
    (∀ c ∈ chunkUrls urls, c.length ≤ MAX_URLS_PER_REQUEST) ∧
    (purgeCloudflareUrls oracle urls (some cfg)).map List.length =
      .ok (chunkUrls urls).length ∧
    (urls.length = 5000 → (chunkUrls urls).map List.length = [2000, 2000, 1000]) := by
  refine ⟨?_, ?_, ?_, ?_⟩
  · exact chunkUrlsGo_join urls.length urls le_rfl
  · intro c hc
    exact (chunkUrlsGo_sizes urls.length urls c hc).1
  · simp [purgeCloudflareUrls, Except.map, List.length_map, List.enum_length]
  · exact chunkUrls_map_length_5000 urls

/-- Concrete inputs for the chunking witness. -/
def sampleUrls5000 : List Str := List.replicate 5000 (("u").data)

/-- Oracle that always answers 200 with no ray header. -/
def sampleOracle : Nat → Nat → AttemptOutcome := fun _ _ => .response 200 none 1

/-- Minimal purge configuration for witnesses. -/
def sampleCfg : CloudflarePurgeConfig :=
  { zoneId := ("z").data, apiToken := ("t").data,
    enablePurgeOnPublish := false, includeProductUrls := false }

theorem purgeCloudflareUrls_chunking_witness :
    (chunkUrls sampleUrls5000).map List.length = [2000, 2000, 1000] :=
  (purgeCloudflareUrls_chunking sampleOracle sampleUrls5000 sampleCfg).2.2.2
    (by unfold sampleUrls5000; rw [List.length_replicate])

/-! ### Database error classifier (src/lib/server/tidb/errors.ts) -/

/-- Containment test on character lists; the source lowercases the message
and calls String.prototype.includes with lowercase patterns. -/
def strHas (s pat : Str) : Bool := decide (pat <:+: s)

/-- Error kinds of the classifier. -/
inductive DbErrorCode where
  | timeout
  | auth_failed
  | sql_error
  | unknown
deriving DecidableEq, Repr

/-- Classifier output: kind, message, optional sqlState. -/
structure DbErrorInfo where
  code : DbErrorCode
  message : Str
  sqlState : Option Str
deriving DecidableEq, Repr

/-- Shape of a thrown error object as the classifier sees it: the optional
string fields code, sqlState, message and the optional boolean fatal. -/
structure ErrObj where
  code : Option Str
  sqlState : Option Str
  fatal : Option Bool
  message : Option Str
deriving DecidableEq, Repr

/-- isMysqlError: the error carries a string code, a string sqlState or a
boolean fatal flag. -/
def isMysqlError (e : ErrObj) : Bool :=
  e.code.isSome || e.sqlState.isSome || e.fatal.isSome

/-- Metadata passed to the message categorizer. -/
structure MsgMeta where
  code : Option Str
  sqlState : Option Str
deriving DecidableEq, Repr

/-- Truthiness of an optional string: present and non-empty. -/
def truthyOpt : Option Str → Bool
  | some s => !s.isEmpty
  | none => false

/-- categorizeByMessage: substring sniffing on the lowercased message, then
sql_error when a truthy sqlState or the ER_PARSE_ERROR code is present,
otherwise unknown. -/
def categorizeByMessage (message : Str) (meta : Option MsgMeta) : DbErrorInfo :=
  let lower := toLowerStr message
  if strHas lower (("timeout").data) = true ∨ strHas lower (("timed out").data) = true ∨
      strHas lower (("connection lost").data) = true then
    { code := .timeout, message, sqlState := none }
  else if strHas lower (("access denied").data) = true ∨
      strHas lower (("permission").data) = true then
    { code := .auth_failed, message, sqlState := none }
  else if truthyOpt (meta.bind MsgMeta.sqlState) = true ∨
      meta.bind MsgMeta.code = some (("ER_PARSE_ERROR").data) then
    { code := .sql_error, message, sqlState := meta.bind MsgMeta.sqlState }
  else
    { code := .unknown, message, sqlState := none }

/-- normalizeMysqlError: explicit timeout-family codes or timeout wording in
the message, then access-denied codes or wording, then any ER_-prefixed
code, then fall back to message categorization. -/
def normalizeMysqlError (e : ErrObj) : DbErrorInfo :=
  let message := e.message.getD (("MySQL error").data)
  let code := e.code.getD []
  let lower := toLowerStr message
  if code = ("ETIMEDOUT").data ∨ code = ("PROTOCOL_SEQUENCE_TIMEOUT").data ∨
      code = ("PROTOCOL_CONNECTION_LOST").data ∨ code = ("ECONNRESET").data ∨
      strHas lower (("timeout").data) = true ∨
      strHas lower (("timed out").data) = true then
    { code := .timeout, message, sqlState := e.sqlState }
  else if code = ("ER_ACCESS_DENIED_ERROR").data ∨
      code = ("ER_DBACCESS_DENIED_ERROR").data ∨
      strHas lower (("access denied").data) = true ∨
      strHas lower (("permission").data) = true then
    { code := .auth_failed, message, sqlState := e.sqlState }
  else if code ≠ [] ∧ decide ((("ER_").data) <+: code) = true then
    { code := .sql_error, message, sqlState := e.sqlState }
  else
    categorizeByMessage message (some { code := some code, sqlState := e.sqlState })

/-- normalizeInitializationError: message sniffing for the Prisma
initialization error class. -/
def normalizeInitializationError (message : Str) : DbErrorInfo :=
  let lower := toLowerStr message
  if strHas lower (("access denied").data) = true ∨
      strHas lower (("authentication").data) = true then
    { code := .auth_failed, message, sqlState := none }
  else if strHas lower (("timeout").data) = true ∨
      strHas lower (("timed out").data) = true then
    { code := .timeout, message, sqlState := none }
  else
    { code := .unknown, message, sqlState := none }

/-- Classifier input: a nullish value, a plain error object, or one of the
Prisma error classes. -/
inductive DbError where
  | nullish
  | obj (e : ErrObj)
  | prismaInitErr (message : Str)
  | prismaKnownRequest (message : Str) (sqlState : Option Str)
  | prismaUnknownRequest (message : Str)
  | prismaRustPanic
  | prismaValidation (message : Str)
deriving DecidableEq, Repr

/-- toDbErrorInfo: dispatch in source order; a plain object goes through the
mysql branch when it carries driver fields, otherwise falls back to message
categorization with its (necessarily absent) code and sqlState as metadata. -/
def toDbErrorInfo : DbError → DbErrorInfo
  | .nullish => { code := .unknown, message := ("Unknown database error").data, sqlState := none }
  | .obj e =>
    if isMysqlError e = true then normalizeMysqlError e
    else
      categorizeByMessage (e.message.getD (("[object Object]").data))
        (some { code := e.code, sqlState := e.sqlState })
  | .prismaInitErr message => normalizeInitializationError message
  | .prismaKnownRequest message sqlState =>
    { code := .sql_error, message, sqlState }
  | .prismaUnknownRequest message => categorizeByMessage message none
  | .prismaRustPanic => { code := .unknown, message := ("Prisma engine panic").data, sqlState := none }
  | .prismaValidation message => { code := .sql_error, message, sqlState := none }

/-- Driver error with an unrecognized explicit code and a bland message. -/
def errEFOO : ErrObj :=
  { code := some (("EFOO").data), sqlState := none, fatal := none,
    message := some (("boom").data) }

/-- C5 counterexample: an error with the explicit driver code EFOO (neither
timeout-family nor access-denied) and a bland message is classified as
unknown, not sql_error: non-ER_ codes fall through to message
categorization. -/
theorem toDbErrorInfo_unknown_code_counterexample :
    (toDbErrorInfo (.obj errEFOO)).code = DbErrorCode.unknown ∧
    (toDbErrorInfo (.obj errEFOO)).code ≠ DbErrorCode.sql_error := by
  constructor
  · decide
  · decide

/-- C5 amended: with an explicit driver code, timeout-family codes always
give timeout; access-denied codes give auth_failed provided the message does
not itself contain timeout wording (the timeout tier also sniffs the
message); ER_-prefixed other codes give sql_error when the message matches
no sniffing pattern; any other explicit code falls through to message
categorization and, with a pattern-free message, no truthy sqlState and a
code other than ER_PARSE_ERROR, yields unknown rather than sql_error. -/
theorem toDbErrorInfo_code_tiers (e : ErrObj) (c message : Str)
    (hcode : e.code = some c) (hmsg : e.message = some message) :
    ((c = ("ETIMEDOUT").data ∨ c = ("PROTOCOL_SEQUENCE_TIMEOUT").data ∨
        c = ("PROTOCOL_CONNECTION_LOST").data ∨ c = ("ECONNRESET").data) →
      (toDbErrorInfo (.obj e)).code = DbErrorCode.timeout)
    ∧ ((c = ("ER_ACCESS_DENIED_ERROR").data ∨ c = ("ER_DBACCESS_DENIED_ERROR").data) →
      strHas (toLowerStr message) (("timeout").data) = false →
      strHas (toLowerStr message) (("timed out").data) = false →
      (toDbErrorInfo (.obj e)).code = DbErrorCode.auth_failed)
    ∧ (decide ((("ER_").data) <+: c) = true →
      c ≠ ("ER_ACCESS_DENIED_ERROR").data →
      c ≠ ("ER_DBACCESS_DENIED_ERROR").data →
      strHas (toLowerStr message) (("timeout").data) = false →
      strHas (toLowerStr message) (("timed out").data) = false →
      strHas (toLowerStr message) (("access denied").data) = false →
      strHas (toLowerStr message) (("permission").data) = false →
      (toDbErrorInfo (.obj e)).code = DbErrorCode.sql_error)
    ∧ (c ≠ [] →
      c ≠ ("ETIMEDOUT").data → c ≠ ("PROTOCOL_SEQUENCE_TIMEOUT").data →
      c ≠ ("PROTOCOL_CONNECTION_LOST").data → c ≠ ("ECONNRESET").data →
      c ≠ ("ER_ACCESS_DENIED_ERROR").data → c ≠ ("ER_DBACCESS_DENIED_ERROR").data →
      decide ((("ER_").data) <+: c) = false →
      strHas (toLowerStr message) (("timeout").data) = false →
      strHas (toLowerStr message) (("timed out").data) = false →
      strHas (toLowerStr message) (("connection lost").data) = false →
      strHas (toLowerStr message) (("access denied").data) = false →
      strHas (toLowerStr message) (("permission").data) = false →
      truthyOpt e.sqlState = false →
      c ≠ ("ER_PARSE_ERROR").data →
      (toDbErrorInfo (.obj e)).code = DbErrorCode.unknown) := by
  have hmy : isMysqlError e = true := by
    simp [isMysqlError, hcode]
  refine ⟨?_, ?_, ?_, ?_⟩
  · intro hk
    simp only [toDbErrorInfo, hmy, if_true]
    simp only [normalizeMysqlError, hcode, hmsg, Option.getD_some]
    rw [if_pos (by rcases hk with rfl | rfl | rfl | rfl <;> simp)]
  · intro hk hT1 hT2
    simp only [toDbErrorInfo, hmy, if_true]
    simp only [normalizeMysqlError, hcode, hmsg, Option.getD_some]
    rw [if_neg, if_pos (by rcases hk with rfl | rfl <;> simp)]
    intro hcontra
    rcases hcontra with h | h | h | h | h | h
    · rcases hk with rfl | rfl <;> exact absurd h (by decide)
    · rcases hk with rfl | rfl <;> exact absurd h (by decide)
    · rcases hk with rfl | rfl <;> exact absurd h (by decide)
    · rcases hk with rfl | rfl <;> exact absurd h (by decide)
    · rw [hT1] at h
      exact absurd h (by decide)
    · rw [hT2] at h
      exact absurd h (by decide)
  · intro hpre hne1 hne2 hT1 hT2 hA1 hA2
    have hcne : c ≠ [] := by
      intro hrfl
      rw [hrfl] at hpre
      exact absurd hpre (by decide)
    simp only [toDbErrorInfo, hmy, if_true]
    simp only [normalizeMysqlError, hcode, hmsg, Option.getD_some]
    rw [if_neg, if_neg, if_pos ⟨hcne, hpre⟩]
    · intro hcontra
      rcases hcontra with h | h | h | h
      · exact hne1 h
      · exact hne2 h
      · rw [hA1] at h
        exact absurd h (by decide)
      · rw [hA2] at h
        exact absurd h (by decide)
    · intro hcontra
      rcases hcontra with h | h | h | h | h | h
      · rw [h] at hpre
        exact absurd hpre (by decide)
      · rw [h] at hpre
        exact absurd hpre (by decide)
      · rw [h] at hpre
        exact absurd hpre (by decide)
      · rw [h] at hpre
        exact absurd hpre (by decide)
      · rw [hT1] at h
        exact absurd h (by decide)
      · rw [hT2] at h
        exact absurd h (by decide)
  · intro hcne hk1 hk2 hk3 hk4 hk5 hk6 hpre hT1 hT2 hCL hA1 hA2 hsql hparse
    simp only [toDbErrorInfo, hmy, if_true]
    simp only [normalizeMysqlError, hcode, hmsg, Option.getD_some]
    rw [if_neg, if_neg, if_neg]
    · simp only [categorizeByMessage, Option.bind_some]
      rw [if_neg, if_neg, if_neg]
      · intro hcontra
        rcases hcontra with h | h
        · simp [hsql] at h
        · simp at h
          exact hparse h
      · intro hcontra
        rcases hcontra with h | h
        · rw [hA1] at h
          exact absurd h (by decide)
        · rw [hA2] at h
          exact absurd h (by decide)
      · intro hcontra
        rcases hcontra with h | h | h
        · rw [hT1] at h
          exact absurd h (by decide)
        · rw [hT2] at h
          exact absurd h (by decide)
        · rw [hCL] at h
          exact absurd h (by decide)
    · intro hcontra
      exact absurd hcontra.2 (by simp [hpre])
    · intro hcontra
      rcases hcontra with h | h | h | h
      · exact hk5 h
      · exact hk6 h
      · rw [hA1] at h
        exact absurd h (by decide)
      · rw [hA2] at h
        exact absurd h (by decide)
    · intro hcontra
      rcases hcontra with h | h | h | h | h | h
      · exact hk1 h
      · exact hk2 h
      · exact hk3 h
      · exact hk4 h
      · rw [hT1] at h
        exact absurd h (by decide)
      · rw [hT2] at h
        exact absurd h (by decide)

/-- Driver error with the explicit timeout code. -/
def errTimeout : ErrObj :=
  { code := some (("ETIMEDOUT").data), sqlState := none, fatal := none,
    message := some (("boom").data) }

/-- Driver error with the access-denied code. -/
def errAuth : ErrObj :=
  { code := some (("ER_ACCESS_DENIED_ERROR").data), sqlState := none, fatal := none,
    message := some (("Access denied for user").data) }

/-- Driver error with an ER_-prefixed sql code. -/
def errParse : ErrObj :=
  { code := some (("ER_PARSE_ERROR").data), sqlState := none, fatal := none,
    message := some (("boom").data) }

theorem toDbErrorInfo_code_tiers_witness :
    (toDbErrorInfo (.obj errTimeout)).code = DbErrorCode.timeout ∧
    (toDbErrorInfo (.obj errAuth)).code = DbErrorCode.auth_failed ∧
    (toDbErrorInfo (.obj errParse)).code = DbErrorCode.sql_error ∧
    (toDbErrorInfo (.obj errEFOO)).code = DbErrorCode.unknown := by
  refine ⟨?_, ?_, ?_, ?_⟩
  · exact (toDbErrorInfo_code_tiers errTimeout (("ETIMEDOUT").data) (("boom").data)
      rfl rfl).1 (Or.inl rfl)
  · exact (toDbErrorInfo_code_tiers errAuth (("ER_ACCESS_DENIED_ERROR").data)
      (("Access denied for user").data) rfl rfl).2.1 (Or.inl rfl)
      (by decide) (by decide)
  · exact (toDbErrorInfo_code_tiers errParse (("ER_PARSE_ERROR").data) (("boom").data)
      rfl rfl).2.2.1 (by decide) (by decide) (by decide)
      (by decide) (by decide) (by decide) (by decide)
  · exact (toDbErrorInfo_code_tiers errEFOO (("EFOO").data) (("boom").data)
      rfl rfl).2.2.2 (by decide) (by decide) (by decide) (by decide) (by decide)
      (by decide) (by decide) (by decide) (by decide) (by decide) (by decide)
      (by decide) (by decide) (by decide) (by decide)

/-! ### Product row updates (src/lib/server/tidb/errors.ts, second module) -/

/-- JavaScript values appearing in rows and update payloads.  Arrays nest,
dates carry their ISO rendering, bigints are integers.  undefined and null
are distinct nullish values. -/
inductive JsValue where
  | nullv
  | undefv
  | str (s : Str)
  | num (q : Rat)
  | boolv (b : Bool)
  | arr (items : List JsValue)
  | date (iso : Str)
  | bigintv (i : Int)

/-- Nullish test: JS loose equality with null. -/
def isNullish : JsValue → Bool
  | .nullv => true
  | .undefv => true
  | _ => false

/-- Powers of ten. -/
def tenPow : Nat → Nat
  | 0 => 1
  | n + 1 => 10 * tenPow n

/-- Model of the Number() string coercion restricted to plain decimal
numerals: blank input is 0, optional sign, integer digits with an optional
fraction part (the rational mkRat (i * 10^k + f) 10^k); exponents, hex forms
and Infinity are outside the modelled scope and map to NaN (none). -/
def parseNumberJs (s : Str) : Option Rat :=
  let t := trimStr s
  if t = [] then some (mkRat 0 1)
  else
    let p :=
      match t with
      | '-' :: rest => (true, rest)
      | '+' :: rest => (false, rest)
      | other => (false, other)
    let sign : Int := if p.1 then -1 else 1
    let ds := takeDigits p.2
    match ds.2 with
    | [] =>
      if ds.1 = [] then none
      else some (mkRat (sign * (digitsVal ds.1 : Int)) 1)
    | '.' :: r2 =>
      let fs := takeDigits r2
      if fs.2 = [] ∧ (ds.1 ≠ [] ∨ fs.1 ≠ []) then
        some (mkRat
          (sign * ((digitsVal ds.1 : Int) * (tenPow fs.1.length : Int) + (digitsVal fs.1 : Int)))
          (tenPow fs.1.length))
      else none
    | _ => none

/-- Model of the Number() coercion on values: numbers unchanged, strings
parsed, null is 0, undefined is NaN, booleans are 0 or 1, bigints convert;
arrays and dates are outside the modelled scope and map to NaN. -/
def jsNumber : JsValue → Option Rat
  | .num q => some q
  | .str s => parseNumberJs s
  | .nullv => some (mkRat 0 1)
  | .undefv => none
  | .boolv b => some (mkRat (if b then 1 else 0) 1)
  | .bigintv i => some (mkRat i 1)
  | .arr _ => none
  | .date _ => none

/-- Strict equality on modelled values.  Arrays and dates compare by
reference in JS, so distinct literals are unequal; the model conservatively
returns false for them. -/
def jsStrictEq : JsValue → JsValue → Bool
  | .nullv, .nullv => true
  | .undefv, .undefv => true
  | .str a, .str b => a == b
  | .num a, .num b => a == b
  | .boolv a, .boolv b => a == b
  | .bigintv a, .bigintv b => a == b
  | _, _ => false

/-- JSON platform primitives, modelled as oracles: parse returns none when
JSON.parse throws. -/
structure JsonOps where
  stringify : JsValue → Str
  parse : Str → Option JsValue

/-- Column value categories of the product table configuration. -/
inductive ColType where
  | string
  | text
  | number
  | json
deriving DecidableEq, Repr

/-- The three sanitizer functions referenced by the column table. -/
inductive SanitizerKind where
  | html
  | url
  | stringArray
deriving DecidableEq, Repr

/-- Per-column configuration of the product update allow-list. -/
structure ColumnConfig where
  column : Str
  maxLength : Option Nat
  type : ColType
  sanitizer : Option SanitizerKind
deriving DecidableEq, Repr

/-- Replace every CRLF pair by a bare newline. -/
def replaceCRLF : Str → Str
  | '\r' :: '\n' :: rest => '\n' :: replaceCRLF rest
  | c :: rest => c :: replaceCRLF rest
  | [] => []

/-- normalizeHtml: nullish to null, strings CRLF-normalized and trimmed
(an empty result stays an empty string), anything else throws. -/
def normalizeHtml (value : JsValue) : Except Str JsValue :=
  match value with
  | .nullv | .undefv => .ok .nullv
  | .str s => .ok (.str (trimStr (replaceCRLF s)))
  | _ => .error (("HTML fields must be strings.").data)

/-- normalizeUrl: nullish or empty to null, trimmed-blank to null, otherwise
the trimmed value must start with http:// or https:// case-insensitively. -/
def normalizeUrl (value : JsValue) : Except Str JsValue :=
  match value with
  | .nullv | .undefv => .ok .nullv
  | .str s =>
    if s = [] then .ok .nullv
    else
      let trimmed := trimStr s
      if trimmed = [] then .ok .nullv
      else if decide ((("http://").data) <+: toLowerStr trimmed) = true ∨
          decide ((("https://").data) <+: toLowerStr trimmed) = true then
        .ok (.str trimmed)
      else .error (("URLs must start with http or https").data)
  | _ => .error (("URL fields must be strings.").data)

/-- normalizeStringArray: nullish to an empty array, arrays keep their
trimmed non-empty string entries (non-strings become empty and are dropped),
anything else throws. -/
def normalizeStringArray (value : JsValue) : Except Str JsValue :=
  match value with
  | .nullv | .undefv => .ok (.arr [])
  | .arr items =>
    .ok (.arr (((items.map (fun item =>
        match item with
        | .str s => trimStr s
        | _ => [])).filter (fun s => decide (0 < s.length))).map JsValue.str))
  | _ => .error (("Expected an array of strings.").data)

/-- Apply the configured sanitizer, when any. -/
def applySanitizer : Option SanitizerKind → JsValue → Except Str JsValue
  | none, v => .ok v
  | some .html, v => normalizeHtml v
  | some .url, v => normalizeUrl v
  | some .stringArray, v => normalizeStringArray v

/-- normalizeValue of the product update module: nullish to null; numbers
pass, numeric strings parse; json values stringify; string and text values
must be strings, are trimmed, length-checked, and blank becomes null. -/
def normalizeValueP (jops : JsonOps) (value : JsValue) (cfg : ColumnConfig) :
    Except Str JsValue :=
  if isNullish value = true then .ok .nullv
  else
    match cfg.type with
    | .number =>
      match value with
      | .num q => .ok (.num q)
      | .str s =>
        match parseNumberJs s with
        | some q => .ok (.num q)
        | none => .error (("Field must be a number.").data)
      | _ => .error (("Field must be a number.").data)
    | .json => .ok (.str (jops.stringify value))
    | .string | .text =>
      match value with
      | .str s =>
        let trimmed := trimStr s
        match cfg.maxLength with
        | some m =>
          if trimmed.length > m then .error (("Field exceeds maximum length.").data)
          else .ok (if trimmed = [] then .nullv else .str trimmed)
        | none => .ok (if trimmed = [] then .nullv else .str trimmed)
      | _ => .error (("Field must be a string.").data)

/-- areValuesEqual: both nullish is equal; json compares parsed structures
through stringify with strict-equality fallback when parsing throws; numbers
compare after Number() coercion (NaN is never equal); otherwise a Date on
the database side compares against an ISO string, and anything else uses
strict equality. -/
def areValuesEqual (jops : JsonOps) (current next : JsValue) (t : ColType) : Bool :=
  if isNullish current = true ∧ isNullish next = true then true
  else
    match t with
    | .json =>
      let pc := match current with | .str s => jops.parse s | v => some v
      let pn := match next with | .str s => jops.parse s | v => some v
      match pc, pn with
      | some a, some b => jops.stringify a == jops.stringify b
      | _, _ => jsStrictEq current next
    | .number =>
      match jsNumber current, jsNumber next with
      | some a, some b => a == b
      | _, _ => false
    | _ =>
      match current, next with
      | .date iso, .str s => iso == s
      | _, _ => jsStrictEq current next

/-- Database rows and payloads: association lists from column or field name
to value.  A missing key reads as undefined. -/
abbrev Row := List (Str × JsValue)

/-- Read a field of a row, undefined when absent. -/
def rowGet (r : Row) (col : Str) : JsValue := (r.lookup col).getD .undefv

/-- PRODUCT_COLUMNS: the allow-list of updatable product columns, in source
declaration order. -/
def PRODUCT_COLUMNS : List (Str × ColumnConfig) :=
  [ ((("title_h1").data),
      { column := ("title_h1").data, maxLength := some 255, type := .string, sanitizer := none }),
    ((("short_summary").data),
      { column := ("short_summary").data, maxLength := some 512, type := .text, sanitizer := none }),
    ((("desc_html").data),
      { column := ("desc_html").data, maxLength := none, type := .text, sanitizer := some .html }),
    ((("primary_cta_label").data),
      { column := ("primary_cta_label").data, maxLength := some 120, type := .string, sanitizer := none }),
    ((("primary_cta_url").data),
      { column := ("primary_cta_url").data, maxLength := some 2048, type := .string, sanitizer := some .url }),
    ((("secondary_cta_label").data),
      { column := ("secondary_cta_label").data, maxLength := some 120, type := .string, sanitizer := none }),
    ((("secondary_cta_url").data),
      { column := ("secondary_cta_url").data, maxLength := some 2048, type := .string, sanitizer := some .url }),
    ((("price_display").data),
      { column := ("price_display").data, maxLength := some 120, type := .string, sanitizer := none }),
    ((("price_currency").data),
      { column := ("price_currency").data, maxLength := some 8, type := .string, sanitizer := none }),
    ((("price_amount").data),
      { column := ("price_amount").data, maxLength := none, type := .number, sanitizer := none }),
    ((("category_slug").data),
      { column := ("category_slug").data, maxLength := some 191, type := .string, sanitizer := none }),
    ((("hero_image_url").data),
      { column := ("hero_image_url").data, maxLength := some 2048, type := .string, sanitizer := some .url }),
    ((("gallery_image_urls").data),
      { column := ("gallery_image_urls").data, maxLength := none, type := .json, sanitizer := some .stringArray }),
    ((("seo_title").data),
      { column := ("seo_title").data, maxLength := some 255, type := .string, sanitizer := none }),
    ((("seo_description").data),
      { column := ("seo_description").data, maxLength := some 512, type := .text, sanitizer := none }),
    ((("badge_label").data),
      { column := ("badge_label").data, maxLength := some 120, type := .string, sanitizer := none }),
    ((("availability_label").data),
      { column := ("availability_label").data, maxLength := some 255, type := .string, sanitizer := none }) ]

/-- buildUpdateAssignments loop: for each allow-listed column present in the
payload (and not undefined), sanitize, normalize, and stage an assignment
when the normalized value differs from the existing one.  The first
validation error aborts.  The do-notation of the source is elaborated into
explicit matches. -/
def buildAssignmentsGo (jops : JsonOps) (payload existing : Row) :
    List (Str × ColumnConfig) → Except Str (List (Str × JsValue))
  | [] => .ok []
  | (key, cfg) :: rest =>
    match payload.lookup key with
    | none => buildAssignmentsGo jops payload existing rest
    | some .undefv => buildAssignmentsGo jops payload existing rest
    | some incoming =>
        match applySanitizer cfg.sanitizer incoming with
        | .error e => .error e
        | .ok sanitized =>
          match normalizeValueP jops sanitized cfg with
          | .error e => .error e
          | .ok normalized =>
            match buildAssignmentsGo jops payload existing rest with
            | .error e => .error e
            | .ok tail =>
              if areValuesEqual jops (rowGet existing cfg.column) normalized cfg.type = true
              then .ok tail
              else .ok ((cfg.column, normalized) :: tail)

/-- buildUpdateAssignments over the full allow-list. -/
def buildUpdateAssignments (jops : JsonOps) (payload existing : Row) :
    Except Str (List (Str × JsValue)) :=
  buildAssignmentsGo jops payload existing PRODUCT_COLUMNS

/-- Decimal rendering of an integer. -/
def intToStr (i : Int) : Str :=
  if i < 0 then '-' :: natToStr i.natAbs else natToStr i.natAbs

/-- normalizeResponseValue: dates render as ISO strings, bigints as decimal
strings, everything else passes through. -/
def normalizeResponseValue : JsValue → JsValue
  | .date iso => .str iso
  | .bigintv i => .str (intToStr i)
  | v => v

/-- mapRow: normalize every value of the row for the response. -/
def mapRow (r : Row) : Row := r.map (fun p => (p.1, normalizeResponseValue p.2))

/-- normalizeSlug: trimmed, required, at most 191 characters. -/
def normalizeSlugE (value : Str) : Except Str Str :=
  if trimStr value = [] then .error (("Slug is required for product updates.").data)
  else if (trimStr value).length > 191 then
    .error (("Slug exceeds maximum length of 191 characters.").data)
  else .ok (trimStr value)

/-- Observable database side effects of updateProduct beyond the reads. -/
inductive DbEffect where
  | updateExec
  | revalidate
deriving DecidableEq, Repr

/-- Result shape of updateProduct. -/
structure ProductUpdateResult where
  rowsAffected : Nat
  product : Row
  previousCategory : JsValue
  found : Bool

/-- updateProduct with the database as oracles: existingRow is the row found
by the initial SELECT (none when absent), reloaded the row returned by the
re-select after an UPDATE, affectedRows the driver count of the UPDATE.  The
effect list records whether the UPDATE statement and the cache revalidation
ran. -/
def updateProduct (jops : JsonOps) (slug : Str) (existingRow : Option Row)
    (reloaded : Option Row) (affectedRows : Nat) (payload : Row) :
    Except Str (ProductUpdateResult × List DbEffect) :=
  match normalizeSlugE slug with
  | .error e => .error e
  | .ok _ =>
    match existingRow with
    | none =>
      .ok ({ rowsAffected := 0, product := [], previousCategory := .nullv,
             found := false }, [])
    | some existing =>
      match buildUpdateAssignments jops payload existing with
      | .error e => .error e
      | .ok assignments =>
        if assignments.isEmpty = true then
          .ok ({ rowsAffected := 0, product := mapRow existing,
                 previousCategory := rowGet existing (("category_slug").data),
                 found := true }, [])
        else
          let r := reloaded.getD existing
          let prev := rowGet existing (("category_slug").data)
          .ok ({ rowsAffected := affectedRows, product := mapRow r,
                 previousCategory := if isNullish prev = true then .nullv else prev,
                 found := true }, [.updateExec, .revalidate])

theorem buildAssignmentsGo_no_changes (jops : JsonOps) (payload existing : Row) :
    ∀ cols : List (Str × ColumnConfig),
      (∀ key cfg v, (key, cfg) ∈ cols → payload.lookup key = some v → v ≠ JsValue.undefv →
        ∃ s n, applySanitizer cfg.sanitizer v = .ok s ∧
          normalizeValueP jops s cfg = .ok n ∧
          areValuesEqual jops (rowGet existing cfg.column) n cfg.type = true) →
      buildAssignmentsGo jops payload existing cols = .ok [] := by
  intro cols
  induction cols with
  | nil =>
    intro _
    rfl
  | cons kc rest ih =>
    intro h
    obtain ⟨key, cfg⟩ := kc
    have htail : buildAssignmentsGo jops payload existing rest = .ok [] :=
      ih (fun k c v hm hl hu => h k c v (List.mem_cons_of_mem _ hm) hl hu)
    rcases hp : payload.lookup key with _ | v
    · simp [buildAssignmentsGo, hp, htail]
    · by_cases hv : v = JsValue.undefv
      · subst hv
        simp [buildAssignmentsGo, hp, htail]
      · obtain ⟨s, n, hs, hn, heqv⟩ := h key cfg v (by simp) hp hv
        cases v <;>
          first
            | exact absurd rfl hv
            | simp [buildAssignmentsGo, hp, hs, hn, heqv, htail]

/-- C6: when every field present in the payload equals the stored row under
the value-typed equality of areValuesEqual (after sanitizing and
normalization), updateProduct stages no assignment and returns found true
with zero rows affected and the unchanged row, and neither the UPDATE
statement nor the cache revalidation runs (empty effect list). -/
theorem updateProduct_idempotent (jops : JsonOps) (slug : Str) (existing : Row)
    (reloaded : Option Row) (affectedRows : Nat) (payload : Row)
    (hslug1 : trimStr slug ≠ []) (hslug2 : (trimStr slug).length ≤ 191)
    (heq : ∀ key cfg v, (key, cfg) ∈ PRODUCT_COLUMNS → payload.lookup key = some v →
      v ≠ JsValue.undefv →
      ∃ s n, applySanitizer cfg.sanitizer v = .ok s ∧
        normalizeValueP jops s cfg = .ok n ∧
        areValuesEqual jops (rowGet existing cfg.column) n cfg.type = true) :
    updateProduct jops slug (some existing) reloaded affectedRows payload =
      .ok ({ rowsAffected := 0, product := mapRow existing,
             previousCategory := rowGet existing (("category_slug").data),
             found := true }, []) := by
  have hb : buildUpdateAssignments jops payload existing = .ok [] :=
    buildAssignmentsGo_no_changes jops payload existing PRODUCT_COLUMNS heq
  have hslug : normalizeSlugE slug = .ok (trimStr slug) := by
    unfold normalizeSlugE
    rw [if_neg hslug1, if_neg (by omega)]
  simp [updateProduct, hslug, buildUpdateAssignments] at hb ⊢
  simp [hb]

/-- JSON oracle instance for witnesses (never exercised by them). -/
def jopsId : JsonOps := { stringify := fun _ => [], parse := fun _ => none }

/-- Stored product row whose price_amount is the number 19.99. -/
def sampleExistingRow : Row := [((("price_amount").data), .num (mkRat 1999 100))]

/-- Update payload carrying the numeric string 19.99. -/
def samplePayload : Row := [((("price_amount").data), .str (("19.99").data))]

theorem updateProduct_idempotent_witness :
    updateProduct jopsId (("abc").data) (some sampleExistingRow) none 0 samplePayload =
      .ok ({ rowsAffected := 0, product := mapRow sampleExistingRow,
             previousCategory := rowGet sampleExistingRow (("category_slug").data),
             found := true }, []) := by
  apply updateProduct_idempotent
  · decide
  · decide
  · intro key cfg v hmem hlook hv
    fin_cases hmem <;>
      first
        | exact Option.noConfusion hlook
        | (have hv2 : v = JsValue.str (("19.99").data) := (Option.some.inj hlook).symm
           subst hv2
           exact ⟨_, _, rfl, rfl, by decide⟩)

/-! ### Transactions (src/lib/server/tidb/mysql.ts) -/

/-- Observable connection-level events of runInTransaction, in order. -/
inductive TxEvent where
  | acquire
  | beginTx
  | commit
  | rollback
  | rollbackFailedLog
  | release
deriving DecidableEq, Repr

/-- Trace of the rollback attempt in the catch handler: the failure of the
rollback itself is logged and swallowed. -/
def rollbackTrace (rollbackFails : Option Str) : List TxEvent :=
  match rollbackFails with
  | none => [.rollback]
  | some _ => [.rollback, .rollbackFailedLog]

/-- runInTransaction with the driver as oracles: beginFails and commitFails
are the exceptions thrown by beginTransaction and commit (none on success),
cb the callback outcome, rollbackFails the exception of the rollback itself.
Returns the outcome propagated to the caller and the ordered event trace. -/
def runInTransaction (beginFails : Option Str) (cb : Except Str α)
    (commitFails : Option Str) (rollbackFails : Option Str) :
    Except Str α × List TxEvent :=
  match beginFails with
  | some e => (.error e, [.acquire] ++ rollbackTrace rollbackFails ++ [.release])
  | none =>
    match cb with
    | .error e =>
      (.error e, [.acquire, .beginTx] ++ rollbackTrace rollbackFails ++ [.release])
    | .ok v =>
      match commitFails with
      | some e =>
        (.error e, [.acquire, .beginTx] ++ rollbackTrace rollbackFails ++ [.release])
      | none => (.ok v, [.acquire, .beginTx, .commit, .release])

/-- C7: on success runInTransaction commits and returns the callback result;
on a callback exception it rolls back and the original error propagates even
when the rollback itself fails (which is only logged); and the connection is
released last in every case. -/
theorem runInTransaction_spec (beginFails : Option Str) (cb : Except Str α)
    (commitFails : Option Str) (rollbackFails : Option Str) :
    (beginFails = none → commitFails = none → ∀ v, cb = .ok v →
      runInTransaction beginFails cb commitFails rollbackFails =
        (.ok v, [.acquire, .beginTx, .commit, .release]))
    ∧ (∀ e, cb = .error e → beginFails = none →
      (runInTransaction beginFails cb commitFails rollbackFails).1 = .error e ∧
      TxEvent.rollback ∈ (runInTransaction beginFails cb commitFails rollbackFails).2 ∧
      TxEvent.commit ∉ (runInTransaction beginFails cb commitFails rollbackFails).2 ∧
      (rollbackFails.isSome = true →
        TxEvent.rollbackFailedLog ∈ (runInTransaction beginFails cb commitFails rollbackFails).2))
    ∧ (runInTransaction beginFails cb commitFails rollbackFails).2.getLast? =
        some TxEvent.release := by
  refine ⟨?_, ?_, ?_⟩
  · rintro rfl rfl v rfl
    rfl
  · rintro e rfl rfl
    rcases rollbackFails with _ | r <;>
      simp [runInTransaction, rollbackTrace]
  · rcases beginFails with _ | b <;> rcases cb with e | v <;>
      rcases commitFails with _ | c <;> rcases rollbackFails with _ | r <;>
        simp [runInTransaction, rollbackTrace]

theorem runInTransaction_spec_witness :
    runInTransaction (α := Nat) none (.ok 7) none none =
      (.ok 7, [.acquire, .beginTx, .commit, .release]) ∧
    (runInTransaction (α := Nat) none (.error (("boom").data)) none
        (some (("rollback fail").data))).1 = .error (("boom").data) := by
  constructor
  · exact (runInTransaction_spec none (.ok 7) none none).1 rfl rfl 7 rfl
  · exact ((runInTransaction_spec none (.error (("boom").data)) none
      (some (("rollback fail").data))).2.1 (("boom").data) rfl rfl).1

/-! ### Credential loaders (src/unnamed/part_005, purge.ts, part_007, part_008) -/

theorem dropWhile_head_not (p : Char → Bool) (s : Str) :
    ∀ c, ((s.dropWhile p).head? = some c) → p c = false := by
  induction s with
  | nil =>
    intro c hc
    simp [List.dropWhile] at hc
  | cons x t ih =>
    intro c hc
    rw [List.dropWhile_cons] at hc
    by_cases hx : p x = true
    · rw [if_pos hx] at hc
      exact ih c hc
    · rw [if_neg hx] at hc
      simp at hc
      subst hc
      cases hpx : p x with
      | false => rfl
      | true => exact absurd hpx hx

theorem dropWhile_getLast_of_ne_nil (p : Char → Bool) (s : Str)
    (h : s.dropWhile p ≠ []) : (s.dropWhile p).getLast? = s.getLast? := by
  conv_rhs => rw [← List.takeWhile_append_dropWhile p s]
  rw [List.getLast?_append_of_ne_nil _ h]

theorem trimStr_head_ws (s : Str) :
    ∀ c, (trimStr s).head? = some c → isWs c = false := by
  intro c hc
  unfold trimStr at hc
  rw [List.head?_reverse] at hc
  have hne : (s.dropWhile isWs).reverse.dropWhile isWs ≠ [] := by
    intro hnil
    rw [hnil] at hc
    simp at hc
  rw [dropWhile_getLast_of_ne_nil _ _ hne, List.getLast?_reverse] at hc
  exact dropWhile_head_not isWs s c hc

theorem trimStr_getLast_ws (s : Str) :
    ∀ c, (trimStr s).getLast? = some c → isWs c = false := by
  intro c hc
  unfold trimStr at hc
  rw [List.getLast?_reverse] at hc
  exact dropWhile_head_not isWs _ c hc

theorem dropWhile_eq_self_of_head (p : Char → Bool) (t : Str)
    (h : ∀ c, t.head? = some c → p c = false) : t.dropWhile p = t := by
  cases t with
  | nil => rfl
  | cons c r =>
    rw [List.dropWhile_cons, if_neg]
    rw [h c rfl]
    simp

theorem trimStr_idem (s : Str) : trimStr (trimStr s) = trimStr s := by
  have h1 : (trimStr s).dropWhile isWs = trimStr s :=
    dropWhile_eq_self_of_head isWs _ (trimStr_head_ws s)
  have h2 : (trimStr s).reverse.dropWhile isWs = (trimStr s).reverse := by
    apply dropWhile_eq_self_of_head
    intro c hc
    rw [List.head?_reverse] at hc
    exact trimStr_getLast_ws s c hc
  show ((((trimStr s).dropWhile isWs).reverse.dropWhile isWs)).reverse = trimStr s
  rw [h1, h2, List.reverse_reverse]

theorem readEnv_some_nonblank (env : Env) (name v : Str)
    (h : readEnv env name = some v) : v ≠ [] ∧ trimStr v = v := by
  rcases he : env name with _ | raw
  · simp only [readEnv, he] at h
    exact Option.noConfusion h
  · simp only [readEnv, he] at h
    by_cases hb : trimStr raw = []
    · rw [if_pos hb] at h
      exact Option.noConfusion h
    · rw [if_neg hb] at h
      have hv : trimStr raw = v := Option.some.inj h
      subst hv
      exact ⟨hb, trimStr_idem raw⟩

/-- TiDB credential bundle. -/
structure TiDbCredentials where
  host : Str
  port : Option Int
  user : Str
  password : Str
  database : Str
  sslMode : Str
  ca : Option Str
  serverName : Option Str
deriving DecidableEq, Repr

/-- Replace every escaped backslash-n pair by a real newline. -/
def replaceEscapedNewlines : Str → Str
  | '\\' :: 'n' :: rest => '\n' :: replaceEscapedNewlines rest
  | c :: rest => c :: replaceEscapedNewlines rest
  | [] => []

/-- decodeCertificate: absent or blank is null; PEM text gets its escaped
newlines expanded; anything else is base64-decoded by the platform oracle,
falling back to newline expansion when decoding fails. -/
def decodeCertificate (b64dec : Str → Option Str) : Option Str → Option Str
  | none => none
  | some v =>
    if v = [] then none
    else if strHas v (("BEGIN CERTIFICATE").data) = true then
      some (replaceEscapedNewlines v)
    else
      match b64dec v with
      | some d => some d
      | none => some (replaceEscapedNewlines v)

/-- loadTiDbCredentials: host, port, user, password and database are
required; sslMode defaults to skip-verify, certificate and server name are
optional. -/
def loadTiDbCredentials (b64dec : Str → Option Str) (env : Env) :
    Option TiDbCredentials :=
  match readEnv env (("TIDB_HOST").data), readEnv env (("TIDB_PORT").data),
      readEnv env (("TIDB_USER").data), readEnv env (("TIDB_PASSWORD").data),
      readEnv env (("TIDB_DATABASE").data) with
  | some host, some port, some user, some password, some database =>
    some { host, port := parseIntJs port, user, password, database,
           sslMode := (readEnv env (("TIDB_SSL_MODE").data)).getD (("skip-verify").data),
           ca := decodeCertificate b64dec (readEnv env (("TIDB_SSL_CA").data)),
           serverName := readEnv env (("TIDB_SSL_SERVER_NAME").data) }
  | _, _, _, _, _ => none

/-- Cloudflare Images configuration bundle. -/
structure CloudflareImagesConfig where
  enabled : Bool
  accountId : Str
  token : Str
  baseUrl : Str
deriving DecidableEq, Repr

/-- normalizeCloudflareImagesBaseUrl: trim, strip every whitespace
character, and drop one trailing slash. -/
def normalizeCloudflareImagesBaseUrl (baseUrl : Str) : Str :=
  let trimmed := (trimStr baseUrl).filter (fun c => !isWs c)
  if trimmed = [] then []
  else if trimmed.getLast? = some '/' then trimmed.dropLast
  else trimmed

/-- getCloudflareImagesConfig: requires the enabled flag to be exactly true
and the account id, token and base URL to be present. -/
def getCloudflareImagesConfig (env : Env) : Option CloudflareImagesConfig :=
  if readBooleanEnv env (("CF_IMAGES_ENABLED").data) ≠ some true then none
  else
    match readEnv env (("CF_IMAGES_ACCOUNT_ID").data),
        readEnv env (("CF_IMAGES_TOKEN").data),
        readEnv env (("CF_IMAGES_BASE_URL").data) with
    | some accountId, some token, some baseUrl =>
      some { enabled := true, accountId, token,
             baseUrl := normalizeCloudflareImagesBaseUrl baseUrl }
    | _, _, _ => none

/-- Algolia configuration bundle. -/
structure AlgoliaConfig where
  appId : Str
  apiKey : Str
  indexName : Str
deriving DecidableEq, Repr

/-- getAlgoliaConfig: app id required; the api key and the index name each
fall back from the primary variable to the legacy one. -/
def getAlgoliaConfig (env : Env) : Option AlgoliaConfig :=
  let appId := readEnv env (("ALGOLIA_APP_ID").data)
  let apiKey := (readEnv env (("ALGOLIA_ADMIN_API_KEY").data)).orElse
    (fun _ => readEnv env (("ALGOLIA_API_KEY").data))
  let indexName := (readEnv env (("ALGOLIA_INDEX_PRIMARY").data)).orElse
    (fun _ => readEnv env (("ALGOLIA_INDEX").data))
  match appId, apiKey, indexName with
  | some a, some k, some i => some { appId := a, apiKey := k, indexName := i }
  | _, _, _ => none

theorem nonblank_of_readEnv (env : Env) (name v : Str)
    (h : readEnv env name = some v) : trimStr v ≠ [] := by
  have n := readEnv_some_nonblank env name v h
  rw [n.2]
  exact n.1

/-- Environment configuring Cloudflare Images with a base URL of a lone
slash. -/
def envImagesSlash : Env := fun n =>
  if n = ("CF_IMAGES_ENABLED").data then some (("true").data)
  else if n = ("CF_IMAGES_ACCOUNT_ID").data then some (("a").data)
  else if n = ("CF_IMAGES_TOKEN").data then some (("t").data)
  else if n = ("CF_IMAGES_BASE_URL").data then some (("/").data)
  else none

/-- C8 counterexample: every required Images field is present and non-blank,
yet the returned configuration carries a blank baseUrl: the loader
normalizes the base URL after the blank check, and a lone slash normalizes
to the empty string. -/
theorem imagesConfig_blank_baseUrl_counterexample :
    getCloudflareImagesConfig envImagesSlash =
      some { enabled := true, accountId := ("a").data, token := ("t").data,
             baseUrl := [] } := by
  decide

/-- C8 amended: each loader returns absent when any required field is unset
or blank, and a returned bundle has every required field non-blank, except
the Cloudflare Images baseUrl: it equals the normalized (whitespace-stripped,
trailing-slash-trimmed) environment value, which is blank exactly when the
configured URL reduces to a lone slash. -/
theorem credential_loaders_all_or_nothing (b64dec : Str → Option Str) (env : Env) :
    ((readEnv env (("TIDB_HOST").data) = none ∨ readEnv env (("TIDB_PORT").data) = none ∨
        readEnv env (("TIDB_USER").data) = none ∨
        readEnv env (("TIDB_PASSWORD").data) = none ∨
        readEnv env (("TIDB_DATABASE").data) = none) →
      loadTiDbCredentials b64dec env = none)
    ∧ (∀ c, loadTiDbCredentials b64dec env = some c →
        trimStr c.host ≠ [] ∧ trimStr c.user ≠ [] ∧ trimStr c.password ≠ [] ∧
          trimStr c.database ≠ [])
    ∧ ((readEnv env (("CLOUDFLARE_ZONE_ID").data) = none ∨
        readEnv env (("CLOUDFLARE_API_TOKEN").data) = none) →
      getCloudflarePurgeConfig env = none)
    ∧ (∀ c, getCloudflarePurgeConfig env = some c →
        trimStr c.zoneId ≠ [] ∧ trimStr c.apiToken ≠ [])
    ∧ ((readBooleanEnv env (("CF_IMAGES_ENABLED").data) ≠ some true ∨
        readEnv env (("CF_IMAGES_ACCOUNT_ID").data) = none ∨
        readEnv env (("CF_IMAGES_TOKEN").data) = none ∨
        readEnv env (("CF_IMAGES_BASE_URL").data) = none) →
      getCloudflareImagesConfig env = none)
    ∧ (∀ c, getCloudflareImagesConfig env = some c →
        trimStr c.accountId ≠ [] ∧ trimStr c.token ≠ [] ∧
        ∃ v, readEnv env (("CF_IMAGES_BASE_URL").data) = some v ∧
          c.baseUrl = normalizeCloudflareImagesBaseUrl v)
    ∧ ((readEnv env (("ALGOLIA_APP_ID").data) = none ∨
        (readEnv env (("ALGOLIA_ADMIN_API_KEY").data) = none ∧
          readEnv env (("ALGOLIA_API_KEY").data) = none) ∨
        (readEnv env (("ALGOLIA_INDEX_PRIMARY").data) = none ∧
          readEnv env (("ALGOLIA_INDEX").data) = none)) →
      getAlgoliaConfig env = none)
    ∧ (∀ c, getAlgoliaConfig env = some c →
        trimStr c.appId ≠ [] ∧ trimStr c.apiKey ≠ [] ∧ trimStr c.indexName ≠ []) := by
  refine ⟨?_, ?_, ?_, ?_, ?_, ?_, ?_, ?_⟩
  · intro hmiss
    unfold loadTiDbCredentials
    rcases h1 : readEnv env (("TIDB_HOST").data) with _ | v1 <;>
      rcases h2 : readEnv env (("TIDB_PORT").data) with _ | v2 <;>
        rcases h3 : readEnv env (("TIDB_USER").data) with _ | v3 <;>
          rcases h4 : readEnv env (("TIDB_PASSWORD").data) with _ | v4 <;>
            rcases h5 : readEnv env (("TIDB_DATABASE").data) with _ | v5 <;>
              first
                | rfl
                | (rcases hmiss with hm | hm | hm | hm | hm <;> simp_all)
  · intro c hc
    unfold loadTiDbCredentials at hc
    rcases h1 : readEnv env (("TIDB_HOST").data) with _ | v1 <;>
      rcases h2 : readEnv env (("TIDB_PORT").data) with _ | v2 <;>
        rcases h3 : readEnv env (("TIDB_USER").data) with _ | v3 <;>
          rcases h4 : readEnv env (("TIDB_PASSWORD").data) with _ | v4 <;>
            rcases h5 : readEnv env (("TIDB_DATABASE").data) with _ | v5 <;>
              rw [h1, h2, h3, h4, h5] at hc <;>
                first
                  | exact Option.noConfusion hc
                  | (rcases Option.some.inj hc with rfl
                     exact ⟨nonblank_of_readEnv env _ _ h1, nonblank_of_readEnv env _ _ h3,
                       nonblank_of_readEnv env _ _ h4, nonblank_of_readEnv env _ _ h5⟩)
  · intro hmiss
    unfold getCloudflarePurgeConfig
    rcases h1 : readEnv env (("CLOUDFLARE_ZONE_ID").data) with _ | v1 <;>
      rcases h2 : readEnv env (("CLOUDFLARE_API_TOKEN").data) with _ | v2 <;>
        first
          | rfl
          | (rcases hmiss with hm | hm <;> simp_all)
  · intro c hc
    unfold getCloudflarePurgeConfig at hc
    rcases h1 : readEnv env (("CLOUDFLARE_ZONE_ID").data) with _ | v1 <;>
      rcases h2 : readEnv env (("CLOUDFLARE_API_TOKEN").data) with _ | v2 <;>
        rw [h1, h2] at hc <;>
          first
            | exact Option.noConfusion hc
            | (rcases Option.some.inj hc with rfl
               exact ⟨nonblank_of_readEnv env _ _ h1, nonblank_of_readEnv env _ _ h2⟩)
  · intro hmiss
    unfold getCloudflareImagesConfig
    by_cases hen : readBooleanEnv env (("CF_IMAGES_ENABLED").data) = some true
    · rw [if_neg (not_not_intro hen)]
      rcases hA : readEnv env (("CF_IMAGES_ACCOUNT_ID").data) with _ | va <;>
        rcases hT : readEnv env (("CF_IMAGES_TOKEN").data) with _ | vt <;>
          rcases hB : readEnv env (("CF_IMAGES_BASE_URL").data) with _ | vb <;>
            first
              | rfl
              | (rcases hmiss with hm | hm | hm | hm <;> simp_all)
    · rw [if_pos hen]
  · intro c hc
    unfold getCloudflareImagesConfig at hc
    by_cases hen : readBooleanEnv env (("CF_IMAGES_ENABLED").data) = some true
    · rw [if_neg (not_not_intro hen)] at hc
      rcases hA : readEnv env (("CF_IMAGES_ACCOUNT_ID").data) with _ | va <;>
        rcases hT : readEnv env (("CF_IMAGES_TOKEN").data) with _ | vt <;>
          rcases hB : readEnv env (("CF_IMAGES_BASE_URL").data) with _ | vb <;>
            rw [hA, hT, hB] at hc <;>
              first
                | exact Option.noConfusion hc
                | (rcases Option.some.inj hc with rfl
                   exact ⟨nonblank_of_readEnv env _ _ hA, nonblank_of_readEnv env _ _ hT,
                     vb, rfl, rfl⟩)
    · rw [if_pos hen] at hc
      exact Option.noConfusion hc
  · intro hmiss
    unfold getAlgoliaConfig
    rcases hA : readEnv env (("ALGOLIA_APP_ID").data) with _ | va <;>
      rcases hK1 : readEnv env (("ALGOLIA_ADMIN_API_KEY").data) with _ | vk1 <;>
        rcases hK2 : readEnv env (("ALGOLIA_API_KEY").data) with _ | vk2 <;>
          rcases hI1 : readEnv env (("ALGOLIA_INDEX_PRIMARY").data) with _ | vi1 <;>
            rcases hI2 : readEnv env (("ALGOLIA_INDEX").data) with _ | vi2 <;>
              first
                | rfl
                | (rcases hmiss with hm | ⟨hm1, hm2⟩ | ⟨hm1, hm2⟩ <;> simp_all)
  · intro c hc
    unfold getAlgoliaConfig at hc
    rcases hA : readEnv env (("ALGOLIA_APP_ID").data) with _ | va <;>
      rcases hK1 : readEnv env (("ALGOLIA_ADMIN_API_KEY").data) with _ | vk1 <;>
        rcases hK2 : readEnv env (("ALGOLIA_API_KEY").data) with _ | vk2 <;>
          rcases hI1 : readEnv env (("ALGOLIA_INDEX_PRIMARY").data) with _ | vi1 <;>
            rcases hI2 : readEnv env (("ALGOLIA_INDEX").data) with _ | vi2 <;>
              rw [hA, hK1, hK2, hI1, hI2] at hc <;>
                first
                  | exact Option.noConfusion hc
                  | (rcases Option.some.inj hc with rfl
                     refine ⟨?_, ?_, ?_⟩ <;>
                       first
                         | exact nonblank_of_readEnv env _ _ hA
                         | exact nonblank_of_readEnv env _ _ hK1
                         | exact nonblank_of_readEnv env _ _ hK2
                         | exact nonblank_of_readEnv env _ _ hI1
                         | exact nonblank_of_readEnv env _ _ hI2)

/-- Empty environment for loader witnesses. -/
def envNone : Env := fun _ => none

theorem credential_loaders_all_or_nothing_witness :
    loadTiDbCredentials (fun _ => none) envNone = none ∧
    getCloudflarePurgeConfig envNone = none ∧
    getCloudflareImagesConfig envNone = none ∧
    getAlgoliaConfig envNone = none := by
  have h := credential_loaders_all_or_nothing (fun _ => none) envNone
  exact ⟨h.1 (Or.inl rfl), h.2.2.1 (Or.inl rfl),
    h.2.2.2.2.1 (Or.inl (by decide)), h.2.2.2.2.2.2.1 (Or.inl rfl)⟩

/-! ### Purge batch state and the replay route (src/unnamed/part_007,
purge-last-batch/route.ts) -/

/-- The single-slot purge batch. -/
structure PurgeBatch where
  urls : List Str
  createdAt : Int
deriving DecidableEq, Repr

/-- Initial module state of the batch slot. -/
def initialLastBatch : Option PurgeBatch := none

/-- First-occurrence deduplication, as Array.from over a Set. -/
def dedupFirstGo (seen : List Str) : List Str → List Str
  | [] => []
  | u :: rest =>
    if u ∈ seen then dedupFirstGo seen rest
    else u :: dedupFirstGo (u :: seen) rest

/-- Deduplicate keeping first occurrences. -/
def dedupFirst (urls : List Str) : List Str := dedupFirstGo [] urls

/-- recordCloudflarePurgeBatch: overwrite the slot with the deduplicated
urls and the current time; this is the only writer of the slot. -/
def recordCloudflarePurgeBatch (urls : List Str) (now : Int) : Option PurgeBatch :=
  some { urls := dedupFirst urls, createdAt := now }

/-- Error codes of the replay route response. -/
inductive RouteErrorCode where
  | no_previous_batch
  | http_error
  | missing_env
  | unexpected_error
deriving DecidableEq, Repr

/-- JSON envelope of the replay route. -/
structure PurgeRouteResponse where
  ok : Bool
  error_code : Option RouteErrorCode
  ray_ids : List Str
  latency_ms : Option Nat
  attempts : Option Nat
deriving DecidableEq, Repr

/-- Response for a missing or empty recorded batch. -/
def noPreviousBatchResponse : PurgeRouteResponse :=
  { ok := false, error_code := some .no_previous_batch, ray_ids := [],
    latency_ms := none, attempts := none }

/-- POST of the purge-last-batch route: missing configuration reports
missing_env; a missing or empty batch reports no_previous_batch without any
purge request; otherwise the recorded urls are purged and the per-chunk
results aggregated (ray ids concatenated, latency and attempts summed, ok
conjoined).  The boolean of the pair records whether a purge was issued. -/
def purgeLastBatchPOST (oracle : Nat → Nat → AttemptOutcome)
    (config : Option CloudflarePurgeConfig) (state : Option PurgeBatch) :
    PurgeRouteResponse × Bool :=
  match config with
  | none =>
    ({ ok := false, error_code := some .missing_env, ray_ids := [],
       latency_ms := none, attempts := none }, false)
  | some cfg =>
    match state with
    | none => (noPreviousBatchResponse, false)
    | some batch =>
      if batch.urls.isEmpty = true then (noPreviousBatchResponse, false)
      else
        match purgeCloudflareUrls oracle batch.urls (some cfg) with
        | .error _ =>
          ({ ok := false, error_code := some .missing_env, ray_ids := [],
             latency_ms := none, attempts := none }, false)
        | .ok results =>
          let rayIds := (results.map PurgeResult.rayIds).flatten
          let latency := results.foldl (fun t r => t + r.latencyMs) 0
          let attempts := results.foldl (fun t r => t + r.attempts) 0
          let ok := results.all PurgeResult.ok
          ({ ok, error_code := if ok = true then none else some .http_error,
             ray_ids := rayIds, latency_ms := some latency,
             attempts := some attempts }, true)

/-- C9: with configuration present but no recorded batch, or a recorded
batch with an empty url list, the replay route answers no_previous_batch
with empty ray ids and issues no purge request; the batch slot starts empty
and only recordCloudflarePurgeBatch populates it (it always yields a filled
slot). -/
theorem purgeLastBatch_no_previous_batch (oracle : Nat → Nat → AttemptOutcome)
    (cfg : CloudflarePurgeConfig) (state : Option PurgeBatch)
    (h : state = none ∨ ∃ b, state = some b ∧ b.urls = []) :
    purgeLastBatchPOST oracle (some cfg) state = (noPreviousBatchResponse, false)
    ∧ initialLastBatch = none
    ∧ ∀ urls now, (recordCloudflarePurgeBatch urls now).isSome = true := by
  refine ⟨?_, rfl, fun urls now => rfl⟩
  rcases h with rfl | ⟨b, rfl, hurls⟩
  · rfl
  · simp [purgeLastBatchPOST, hurls]

theorem purgeLastBatch_no_previous_batch_witness :
    purgeLastBatchPOST sampleOracle (some sampleCfg) none =
      (noPreviousBatchResponse, false) :=
  (purgeLastBatch_no_previous_batch sampleOracle sampleCfg none (Or.inl rfl)).1

/-! ### Blog post update normalization (src/unnamed/part_004, third module) -/

/-- Column value categories of the blog post configuration. -/
inductive BlogColType where
  | string
  | text
  | html
  | url
  | datetime
  | boolean
deriving DecidableEq, Repr

/-- Per-column configuration of the blog update allow-list. -/
structure BlogColumnConfig where
  column : Str
  type : BlogColType
  maxLength : Option Nat
deriving DecidableEq, Repr

/-- normalizeValue of the blog update module: nullish to null; string and
text fields must be strings, are trimmed and length-checked, blank becomes
null; html keeps the CRLF-normalized trimmed text even when empty; url
fields clear to null when blank and must start with http or https;
datetime strings go through the platform date parser, an oracle producing
the rendered instant or none when invalid; booleans become 1 or 0. -/
def normalizeValueBlog (dateParse : Str → Option Str) (value : JsValue)
    (cfg : BlogColumnConfig) : Except Str JsValue :=
  if isNullish value = true then .ok .nullv
  else
    match cfg.type with
    | .string | .text =>
      match value with
      | .str s =>
        let trimmed := trimStr s
        match cfg.maxLength with
        | some m =>
          if trimmed.length > m then .error (("Field exceeds maximum length.").data)
          else .ok (if trimmed = [] then .nullv else .str trimmed)
        | none => .ok (if trimmed = [] then .nullv else .str trimmed)
      | _ => .error (("Field must be a string.").data)
    | .html =>
      match value with
      | .str s => .ok (.str (trimStr (replaceCRLF s)))
      | _ => .error (("Field must be a string.").data)
    | .url =>
      match value with
      | .str s =>
        let trimmed := trimStr s
        if trimmed = [] then .ok .nullv
        else if decide ((("http://").data) <+: toLowerStr trimmed) = true ∨
            decide ((("https://").data) <+: toLowerStr trimmed) = true then
          match cfg.maxLength with
          | some m =>
            if trimmed.length > m then .error (("Field exceeds maximum length.").data)
            else .ok (.str trimmed)
          | none => .ok (.str trimmed)
        else .error (("Field must be a valid URL.").data)
      | _ => .error (("Field must be a string.").data)
    | .datetime =>
      match value with
      | .str s =>
        match dateParse s with
        | some iso => .ok (.str iso)
        | none => .error (("Field must be an ISO date string.").data)
      | _ => .error (("Field must be an ISO date string.").data)
    | .boolean =>
      match value with
      | .boolv b => .ok (.num (mkRat (if b then 1 else 0) 1))
      | _ => .error (("Field must be a boolean.").data)

/-- C10: in both the product and the blog update paths, a string- or
text-typed field whose value trims to the empty string normalizes to null
before comparison and write, so the column is cleared rather than storing
an empty string, and the length check never fires on it. -/
theorem normalizeValue_blank_string_to_null (jops : JsonOps)
    (dateParse : Str → Option Str) (s : Str) (cfgP : ColumnConfig)
    (cfgB : BlogColumnConfig)
    (hs : trimStr s = [])
    (hP : cfgP.type = ColType.string ∨ cfgP.type = ColType.text)
    (hB : cfgB.type = BlogColType.string ∨ cfgB.type = BlogColType.text) :
    normalizeValueP jops (.str s) cfgP = .ok .nullv ∧
    normalizeValueBlog dateParse (.str s) cfgB = .ok .nullv := by
  constructor
  · unfold normalizeValueP
    rw [if_neg (by simp [isNullish])]
    rcases hP with h | h <;> rw [h] <;>
      rcases cfgP.maxLength with _ | m <;> simp [hs]
  · unfold normalizeValueBlog
    rw [if_neg (by simp [isNullish])]
    rcases hB with h | h <;> rw [h] <;>
      rcases cfgB.maxLength with _ | m <;> simp [hs]

theorem normalizeValue_blank_string_to_null_witness :
    normalizeValueP jopsId (.str (("  ").data))
      { column := ("short_summary").data, maxLength := some 512,
        type := .text, sanitizer := none } = .ok .nullv ∧
    normalizeValueBlog (fun _ => none) (.str (("  ").data))
      { column := ("title").data, type := .string, maxLength := some 255 } =
      .ok .nullv :=
  normalizeValue_blank_string_to_null jopsId (fun _ => none) (("  ").data)
    { column := ("short_summary").data, maxLength := some 512,
      type := .text, sanitizer := none }
    { column := ("title").data, type := .string, maxLength := some 255 }
    (by decide) (Or.inr rfl) (Or.inl rfl)
